import Mathlib

/-! YellowAI chatbot client: session, persistence and reveal model.

A shallow embedding of `src/App.jsx`.  React state, `localStorage` and
`sessionStorage` are one explicit state record; every handler of the component
is a function on that record.  Browser builtins that the component calls
(`crypto.subtle.digest`, `atob`, `btoa`, `JSON.parse`, `JSON.stringify`) and the
build-time configuration (`VITE_OPENROUTER_API_KEY`) are fields of `Env`.
Clock readings (`Date.now()`, `new Date().toISOString()`) are arguments of the
handler that reads them.

Strings are Lean strings (sequences of Unicode scalar values); where the source
measures a string with `.length` the model counts UTF-16 code units.
-/

namespace YellowAI

/-! ## JavaScript values as far as `verifyToken` meets them -/

/-- A JavaScript number: a finite double `m * 2 ^ e`, an infinity, or NaN. -/
inductive JsNum where
  | finite (m e : Int)
  | inf (negative : Bool)
  | nan

/-- What `JSON.parse` can return, together with `undefined`, the value of a
missing property. -/
inductive JsVal where
  | undefined
  | null
  | bool (b : Bool)
  | num (x : JsNum)
  | str (s : String)
  | arr (items : List JsVal)
  | obj (fields : List (String × JsVal))

/-- Truthiness of a number: zero and NaN are falsy. -/
def JsNum.truthy : JsNum → Bool
  | .finite m _ => m != 0
  | .inf _ => true
  | .nan => false

/-- Truthiness as used by `if (userId)`. -/
def JsVal.truthy : JsVal → Bool
  | .undefined => false
  | .null => false
  | .bool b => b
  | .num x => x.truthy
  | .str s => s != ""
  | .arr _ => true
  | .obj _ => true

/-- The comparison `u.id === userId` where the left operand is a string: strict
equality holds only for a string of the same content. -/
def strictEqStr (s : String) : JsVal → Bool
  | .str t => s == t
  | _ => false

/-- The property read `decoded.userId`.  It throws (`none`) on `null` and
`undefined`, is `undefined` on primitives and arrays, and on an object is the
value stored under the key `userId`, `undefined` when there is none. -/
def getUserId : JsVal → Option JsVal
  | .undefined => none
  | .null => none
  | .obj fields => some ((fields.lookup "userId").getD .undefined)
  | _ => some .undefined

/-! ## String helpers -/

/-- Number of UTF-16 code units of one character. -/
def utf16Size (c : Char) : Nat := if c.toNat < 65536 then 1 else 2

/-- The `.length` of a JavaScript string: its number of UTF-16 code units. -/
def jsLength (s : String) : Nat := (s.data.map utf16Size).sum

/-- White space and line terminators, the characters `String.prototype.trim`
removes. -/
def isJsWhitespace (c : Char) : Bool :=
  let n := c.toNat
  n == 9 || n == 10 || n == 11 || n == 12 || n == 13 || n == 32 || n == 160 ||
  n == 5760 || (8192 ≤ n && n ≤ 8202) || n == 8232 || n == 8233 || n == 8239 ||
  n == 8287 || n == 12288 || n == 65279

/-- The method `trim()`. -/
def jsTrim (s : String) : String :=
  String.mk ((s.data.dropWhile isJsWhitespace).reverse.dropWhile isJsWhitespace).reverse

/-- The test `!input.trim()`. -/
def isBlank (s : String) : Bool := jsTrim s == ""

/-- The call `text.split(' ')`. -/
def splitSpace (s : String) : List String := (s.data.splitOn ' ').map String.mk

/-- Words joined by single spaces. -/
def joinSpace : List String → String
  | [] => ""
  | [w] => w
  | w :: ws => w ++ " " ++ joinSpace ws

/-- Hexadecimal rendering of one byte, `b.toString(16).padStart(2, '0')`. -/
def hexByte (b : Nat) : String :=
  let d := Nat.toDigits 16 b
  String.mk (List.replicate (2 - d.length) '0' ++ d)

/-! ## Records -/

/-- A user record of the `users` collection. -/
structure User where
  id : String
  name : String
  email : String
  password : String
  createdAt : String
  deriving DecidableEq, Repr

/-- A project record of the `projects` collection. -/
structure Project where
  id : String
  userId : String
  name : String
  systemPrompt : String
  createdAt : String
  deriving DecidableEq, Repr

/-- The `role` of a message; the source uses the three literals. -/
inductive Role where
  | user
  | assistant
  | system
  deriving DecidableEq, Repr

/-- One chat message. -/
structure Message where
  role : Role
  content : String
  deriving DecidableEq, Repr

/-- The screens of the component. -/
inductive View where
  | login
  | register
  | dashboard
  deriving DecidableEq, Repr

/-- The persistent store.  `users` and `projects` are the parsed contents of the
keys of those names (an absent key reads as the empty list), and `messages id`
is the parsed content of the key made of `messages_` and `id`, `none` when the
key is absent. -/
structure LocalStorage where
  users : List User
  projects : List Project
  messages : String → Option (List Message)

/-- The session store: the key `authToken`. -/
structure SessionStorage where
  authToken : Option String

/-- Builtins and configuration the component relies on.  `none` stands for a
thrown exception, and for an absent API key. -/
structure Env where
  sha256 : String → List Nat
  atob : String → Option String
  btoa : String → Option String
  jsonParse : String → Option JsVal
  jsonStringify : JsVal → String
  apiKey : Option String

/-- The React state of `App` together with the two browser stores. -/
structure AppState where
  view : View
  currentUser : Option User
  projects : List Project
  selectedProject : Option Project
  messages : List Message
  input : String
  loading : Bool
  sidebarOpen : Bool
  error : String
  loginEmail : String
  loginPassword : String
  registerName : String
  registerEmail : String
  registerPassword : String
  newProjectName : String
  newProjectPrompt : String
  showNewProject : Bool
  streaming : Bool
  streamedContent : String
  localStorage : LocalStorage
  sessionStorage : SessionStorage

/-- The state in which the component mounts: the `useState` defaults over the
stores found in the browser. -/
def initialState (ls : LocalStorage) (ss : SessionStorage) : AppState where
  view := .login
  currentUser := none
  projects := []
  selectedProject := none
  messages := []
  input := ""
  loading := false
  sidebarOpen := true
  error := ""
  loginEmail := ""
  loginPassword := ""
  registerName := ""
  registerEmail := ""
  registerPassword := ""
  newProjectName := ""
  newProjectPrompt := ""
  showNewProject := false
  streaming := false
  streamedContent := ""
  localStorage := ls
  sessionStorage := ss

/-! ## Security utility functions -/

/-- The function `hashPassword`: the digest bytes in lower-case hexadecimal. -/
def hashPassword (env : Env) (password : String) : String :=
  String.join ((env.sha256 password).map hexByte)

/-- The function `generateToken`, reading the clock as `timestamp`. -/
def generateToken (env : Env) (userId : String) (timestamp : Nat) : Option String :=
  env.btoa (env.jsonStringify
    (.obj [("userId", .str userId), ("timestamp", .num (.finite timestamp 0))]))

/-- The body of the `try` block of `verifyToken`. -/
def verifyTokenTry (env : Env) (token : String) : Option JsVal := do
  let text ← env.atob token
  let decoded ← env.jsonParse text
  getUserId decoded

/-- The function `verifyToken`: any exception of the body yields `null`. -/
def verifyToken (env : Env) (token : String) : JsVal :=
  match verifyTokenTry env token with
  | some userId => userId
  | none => .null

/-! ## Store access -/

/-- The write `localStorage.setItem` on the key of the message log of `id`. -/
def LocalStorage.setMessages (ls : LocalStorage) (id : String) (log : List Message) :
    LocalStorage :=
  { ls with messages := fun k => if k = id then some log else ls.messages k }

/-- The call `localStorage.removeItem` on the key of the message log of `id`. -/
def LocalStorage.removeMessages (ls : LocalStorage) (id : String) : LocalStorage :=
  { ls with messages := fun k => if k = id then none else ls.messages k }

/-- The read of a message log, an absent key being the empty log. -/
def LocalStorage.readMessages (ls : LocalStorage) (id : String) : List Message :=
  (ls.messages id).getD []

/-! ## Session and account handlers -/

/-- The function `loadProjects`, called with the value `userId`. -/
def loadProjects (userId : JsVal) (s : AppState) : AppState :=
  { s with projects := s.localStorage.projects.filter fun p => strictEqStr p.userId userId }

/-- The mount effect that resumes a session from the stored token. -/
def resumeSession (env : Env) (s : AppState) : AppState :=
  match s.sessionStorage.authToken with
  | none => s
  | some token =>
    if token = "" then s
    else
      let userId := verifyToken env token
      if userId.truthy then
        match s.localStorage.users.find? fun u => strictEqStr u.id userId with
        | some user =>
          { loadProjects userId { s with currentUser := some user } with view := .dashboard }
        | none => s
      else s

/-- Start of the application over the given stores: mount, then the effect. -/
def startup (env : Env) (ls : LocalStorage) (ss : SessionStorage) : AppState :=
  resumeSession env (initialState ls ss)

/-- The handler `handleRegister`.  `now` is the clock reading that becomes the
id, `iso` the creation time stamp and `tokenNow` the reading inside
`generateToken`.  The digest is awaited before the record is built; the handler
is taken as one step.  When `btoa` throws, the handler stops after the write of
the user collection. -/
def handleRegister (env : Env) (now : Nat) (iso : String) (tokenNow : Nat) (s : AppState) :
    AppState :=
  let s := { s with error := "" }
  if s.registerName = "" ∨ s.registerEmail = "" ∨ s.registerPassword = "" then
    { s with error := "All fields are required" }
  else if jsLength s.registerPassword < 6 then
    { s with error := "Password must be at least 6 characters" }
  else
    let users := s.localStorage.users
    if (users.find? fun u => u.email == s.registerEmail).isSome then
      { s with error := "Email already registered" }
    else
      let hashedPassword := hashPassword env s.registerPassword
      let newUser : User :=
        { id := toString now
          name := s.registerName
          email := s.registerEmail
          password := hashedPassword
          createdAt := iso }
      let s := { s with localStorage := { s.localStorage with users := users ++ [newUser] } }
      match generateToken env newUser.id tokenNow with
      | none => s
      | some token =>
        { s with
          sessionStorage := { authToken := some token }
          currentUser := some newUser
          view := .dashboard }

/-- The handler `handleLogin`; `tokenNow` is the clock reading inside
`generateToken`.  When `btoa` throws, the handler stops before any write. -/
def handleLogin (env : Env) (tokenNow : Nat) (s : AppState) : AppState :=
  let s := { s with error := "" }
  let users := s.localStorage.users
  let hashedPassword := hashPassword env s.loginPassword
  match users.find? fun u => u.email == s.loginEmail && u.password == hashedPassword with
  | none => { s with error := "Invalid email or password" }
  | some user =>
    match generateToken env user.id tokenNow with
    | none => s
    | some token =>
      { loadProjects (.str user.id)
          { s with sessionStorage := { authToken := some token }, currentUser := some user } with
        view := .dashboard }

/-- The handler `handleLogout`. -/
def handleLogout (s : AppState) : AppState :=
  { s with
    sessionStorage := { authToken := none }
    currentUser := none
    projects := []
    selectedProject := none
    messages := []
    view := .login }

/-- Typing into the three registration fields, then `handleRegister`. -/
def register (env : Env) (name email password : String) (now : Nat) (iso : String)
    (tokenNow : Nat) (s : AppState) : AppState :=
  handleRegister env now iso tokenNow
    { s with registerName := name, registerEmail := email, registerPassword := password }

/-- Typing into the two login fields, then `handleLogin`. -/
def login (env : Env) (email password : String) (tokenNow : Nat) (s : AppState) : AppState :=
  handleLogin env tokenNow { s with loginEmail := email, loginPassword := password }

/-! ## Project handlers -/

/-- The handler `createProject`; `now` becomes the id and `iso` the creation
time stamp.  Without a current user the read `currentUser.id` throws and
nothing is written. -/
def createProject (now : Nat) (iso : String) (s : AppState) : AppState :=
  if s.newProjectName = "" ∨ s.newProjectPrompt = "" then
    { s with error := "Project name and system prompt are required" }
  else
    match s.currentUser with
    | none => s
    | some currentUser =>
      let project : Project :=
        { id := toString now
          userId := currentUser.id
          name := s.newProjectName
          systemPrompt := s.newProjectPrompt
          createdAt := iso }
      { s with
        localStorage :=
          { s.localStorage with projects := s.localStorage.projects ++ [project] }
        projects := s.projects ++ [project]
        newProjectName := ""
        newProjectPrompt := ""
        showNewProject := false
        error := "" }

/-- The handler `deleteProject`. -/
def deleteProject (projectId : String) (s : AppState) : AppState :=
  let filtered := s.localStorage.projects.filter fun p => p.id != projectId
  let s :=
    { s with
      localStorage := { s.localStorage with projects := filtered }
      projects := s.projects.filter fun p => p.id != projectId }
  let s := { s with localStorage := s.localStorage.removeMessages projectId }
  if (s.selectedProject.map fun p => p.id) = some projectId then
    { s with selectedProject := none, messages := [] }
  else s

/-- The handler `selectProject`. -/
def selectProject (project : Project) (s : AppState) : AppState :=
  { s with
    selectedProject := some project
    messages := s.localStorage.readMessages project.id }

/-! ## Conversation: request, reveal, commit

`sendMessage` is asynchronous.  Its part up to the `fetch` call is
`sendMessage`; what it holds across the `await` (the values its closure
captured) is a `PendingRequest`; the part that runs when the request settles is
`onResponse`; the closure of the `setInterval` callback is a `Reveal` and one
firing of the callback is `tick`. -/

/-- The values `sendMessage` keeps across the `await fetch`. -/
structure PendingRequest where
  newMessages : List Message
  selectedProject : Project
  deriving DecidableEq, Repr

/-- How the awaited request settles. -/
inductive FetchOutcome where
  /-- The call `fetch` rejected with an error of this message. -/
  | rejected (message : String)
  /-- A response with `ok` false: its status and `error.message` of its body. -/
  | notOk (status : Nat) (bodyMessage : Option String)
  /-- A response with `ok` true whose body could not be read as a reply: the
  message of the error thrown by `response.json()`, by the path
  `data.choices[0].message.content` or by `split`. -/
  | malformed (message : String)
  /-- A response with `ok` true carrying this reply text. -/
  | reply (content : String)
  deriving DecidableEq, Repr

/-- The values the interval callback closes over; `i` is its counter. -/
structure Reveal where
  words : List String
  assistantText : String
  newMessages : List Message
  selectedProject : Project
  i : Nat
  deriving DecidableEq, Repr

/-- When React applies the function handed to `setStreamedContent`.  React
documents that an updater function is put in a queue and called during the next
render (`atRender`), which here is after the interval callback has returned and
its counter has been incremented; under synchronous rendering the function is
applied inside the call (`atCall`).  The source does not fix which. -/
inductive UpdaterTiming where
  | atCall
  | atRender
  deriving DecidableEq, Repr

/-- The handler `sendMessage` up to the request.  The second component is the
request issued, `none` when the handler returns before `fetch`. -/
def sendMessage (env : Env) (s : AppState) : AppState × Option PendingRequest :=
  match s.selectedProject with
  | none => (s, none)
  | some project =>
    if isBlank s.input then (s, none)
    else if env.apiKey.getD "" = "" then
      ({ s with error := "API key not configured. Please add VITE_OPENROUTER_API_KEY to your .env file and restart the server." }, none)
    else
      let userMessage : Message := { role := .user, content := s.input }
      let newMessages := s.messages ++ [userMessage]
      ({ s with messages := newMessages, input := "", loading := true, error := "" },
        some { newMessages := newMessages, selectedProject := project })

/-- The message of the error thrown for a response with `ok` false. -/
def httpErrorMessage (status : Nat) (bodyMessage : Option String) : String :=
  if status = 429 then "Rate limit exceeded. Please wait a moment and try again."
  else if status = 401 then
    "Invalid API key. Please check your VITE_OPENROUTER_API_KEY in .env file."
  else if status = 404 then
    "API endpoint not found. Please check your VITE_API_BASE_URL configuration."
  else if bodyMessage.getD "" = "" then "API Error: " ++ toString status
  else bodyMessage.getD ""

/-- The `catch` and `finally` blocks of `sendMessage` for an error of this
message. -/
def onError (message : String) (s : AppState) : AppState :=
  let shown :=
    if message = "" then
      "Failed to send message. Please check your connection and try again."
    else message
  { s with error := shown, loading := false }

/-- The part of `sendMessage` after the `await`: on a reply the reveal buffer
is reset, the interval is started and `finally` clears `loading`; on any
failure `catch` and `finally` run. -/
def onResponse (req : PendingRequest) (outcome : FetchOutcome) (s : AppState) :
    AppState × Option Reveal :=
  match outcome with
  | .rejected message => (onError message s, none)
  | .notOk status bodyMessage => (onError (httpErrorMessage status bodyMessage) s, none)
  | .malformed message => (onError message s, none)
  | .reply content =>
    ({ s with streamedContent := "", streaming := true, loading := false },
      some
        { words := splitSpace content
          assistantText := content
          newMessages := req.newMessages
          selectedProject := req.selectedProject
          i := 0 })

/-- The function handed to `setStreamedContent`, reading the counter of `r`.
A read past the end of `words` is `undefined`, which concatenates as that
word. -/
def revealUpdater (r : Reveal) (prev : String) : String :=
  prev ++ (if r.i = 0 then "" else " ") ++ r.words.getD r.i "undefined"

/-- One firing of the interval callback, up to the render that follows it.
The second component is the closure for the next firing, `none` once
`clearInterval` has run. -/
def tick (timing : UpdaterTiming) (r : Reveal) (s : AppState) : AppState × Option Reveal :=
  let next := { r with i := r.i + 1 }
  let shown :=
    match timing with
    | .atCall => revealUpdater r s.streamedContent
    | .atRender => revealUpdater next s.streamedContent
  let s := { s with streamedContent := shown }
  if next.i ≥ next.words.length then
    let assistantMessage : Message := { role := .assistant, content := r.assistantText }
    let updatedMessages := r.newMessages ++ [assistantMessage]
    ({ s with
       streaming := false
       messages := updatedMessages
       localStorage := s.localStorage.setMessages r.selectedProject.id updatedMessages
       streamedContent := "" }, none)
  else (s, some next)

/-- Firings of the interval callback, one per element of `timings`, stopping
early when the interval has been cleared. -/
def runTicks : List UpdaterTiming → Reveal → AppState → AppState × Option Reveal
  | [], r, s => (s, some r)
  | t :: ts, r, s =>
    match tick t r s with
    | (s1, some r1) => runTicks ts r1 s1
    | (s1, none) => (s1, none)

/-- The chat bubbles the dashboard renders when a project is selected: one per
message of the history, then the reveal buffer while `streaming` is set. -/
def visibleBubbles (s : AppState) : List Message :=
  match s.selectedProject with
  | none => []
  | some _ =>
    s.messages ++
      (if s.streaming then [{ role := .assistant, content := s.streamedContent }] else [])

/-- A click on the send button, which is disabled while `loading` is set or the
input is blank. -/
def clickSend (env : Env) (s : AppState) : AppState × Option PendingRequest :=
  if s.loading || isBlank s.input then (s, none) else sendMessage env s

/-- The Enter key in the chat input, which is disabled while `loading` is set. -/
def pressEnter (env : Env) (s : AppState) : AppState × Option PendingRequest :=
  if s.loading then (s, none) else sendMessage env s

/-! ## A test double for the builtins -/

/-- A stand-in environment for concrete runs: the digest is the list of
character codes modulo 256, base64 coding is the identity, `JSON.stringify`
writes only the user id and `JSON.parse` reads it back as the object carrying
it.  The API key is configured. -/
def mockEnv : Env where
  sha256 := fun s => s.data.map fun c => c.toNat % 256
  atob := fun s => some s
  btoa := fun s => some s
  jsonParse := fun s => some (.obj [("userId", .str s)])
  jsonStringify := fun v => match getUserId v with
    | some (.str id) => id
    | _ => ""
  apiKey := some "key"

/-- The empty persistent store. -/
def emptyStore : LocalStorage where
  users := []
  projects := []
  messages := fun _ => none

/-! ## Predicates used by the statements -/

/-- The user record a successful registration builds. -/
def newUserOf (env : Env) (name email password : String) (now : Nat) (iso : String) : User where
  id := toString now
  name := name
  email := email
  password := hashPassword env password
  createdAt := iso

/-- The field checks of `handleRegister` pass. -/
def fieldsValid (name email password : String) : Prop :=
  name ≠ "" ∧ email ≠ "" ∧ password ≠ "" ∧ 6 ≤ jsLength password

instance (name email password : String) : Decidable (fieldsValid name email password) := by
  unfold fieldsValid; infer_instance

/-- Some stored user has this email. -/
def emailTaken (ls : LocalStorage) (email : String) : Prop :=
  ∃ u ∈ ls.users, u.email = email

instance (ls : LocalStorage) (email : String) : Decidable (emailTaken ls email) := by
  unfold emailTaken; infer_instance

/-- Number of stored user records carrying this email. -/
def emailCount (ls : LocalStorage) (email : String) : Nat :=
  (ls.users.filter fun u => u.email == email).length

/-- The stored user emails are pairwise distinct. -/
def emailsDistinct (ls : LocalStorage) : Prop := (ls.users.map fun u => u.email).Nodup

instance (ls : LocalStorage) : Decidable (emailsDistinct ls) := by
  unfold emailsDistinct; infer_instance

/-- The state after Ann has registered against the empty store and logged out. -/
def annLoggedOut : AppState :=
  handleLogout (register mockEnv "Ann" "ann@x.com" "secret1" 1000 "t1" 1001
    (initialState emptyStore ⟨none⟩))

/-- A token that does not decode to a user id: `atob` throws on it, or
`JSON.parse` throws on the decoded text, or the parsed value has no string
under `userId` (`null`, a number, an object without the key, ...). -/
def garbageToken (env : Env) (token : String) : Prop :=
  env.atob token = none ∨
  (∃ text, env.atob token = some text ∧ env.jsonParse text = none) ∨
  (∃ text decoded, env.atob token = some text ∧ env.jsonParse text = some decoded ∧
    ∀ id, getUserId decoded ≠ some (.str id))

/-- The state the last firing of the interval callback leaves: reveal over,
the assistant message appended to the history captured at the send, that history
written to the message log of the project captured at the send, buffer cleared. -/
def commitState (r : Reveal) (s : AppState) : AppState :=
  { s with
    streaming := false
    messages := r.newMessages ++ [{ role := .assistant, content := r.assistantText }]
    localStorage := s.localStorage.setMessages r.selectedProject.id
      (r.newMessages ++ [{ role := .assistant, content := r.assistantText }])
    streamedContent := "" }

/-- The request settles with a failure: anything but a reply. -/
def FetchOutcome.isFailure : FetchOutcome → Bool
  | .reply _ => false
  | _ => true

/-- Typing `text` into the chat input, sending it, the request settling with
`outcome`, and on a reply the reveal running to its last tick, the updater of
tick number `k` (from 0) applied at `timing k`. -/
def runSend (env : Env) (timing : Nat → UpdaterTiming) (text : String)
    (outcome : FetchOutcome) (s : AppState) : AppState :=
  match sendMessage env { s with input := text } with
  | (s1, none) => s1
  | (s1, some req) =>
    match onResponse req outcome s1 with
    | (s2, none) => s2
    | (s2, some r) => (runTicks ((List.range r.words.length).map timing) r s2).1

/-- A sequence of sends, each run to its end before the next. -/
def runSends (env : Env) (timing : Nat → UpdaterTiming) :
    List (String × FetchOutcome) → AppState → AppState
  | [], s => s
  | (text, outcome) :: rest, s => runSends env timing rest (runSend env timing text outcome s)

/-- Every user message of the log is immediately followed by an assistant
message. -/
def completeTurns : List Message → Bool
  | [] => true
  | [m] => m.role != .user
  | m :: m2 :: rest => (m.role != .user || m2.role == .assistant) && completeTurns (m2 :: rest)

/-- The project Ann creates in the concrete runs. -/
def botProject : Project where
  id := "2000"
  userId := "1000"
  name := "Bot"
  systemPrompt := "You are terse."
  createdAt := "t2"

/-- Ann registers against the empty store, creates the project named Bot and
selects it. -/
def annReady : AppState :=
  selectProject botProject
    (createProject 2000 "t2"
      { register mockEnv "Ann" "ann@x.com" "secret1" 1000 "t1" 1001
          (initialState emptyStore ⟨none⟩) with
        newProjectName := "Bot", newProjectPrompt := "You are terse." })

/-- From `annReady`: the message `text` is sent and the request settles with
the reply `content`; the result is the state and the closure of the interval
just started. -/
def annStreaming (text content : String) : AppState × Option Reveal :=
  match sendMessage mockEnv { annReady with input := text } with
  | (s1, none) => (s1, none)
  | (s1, some req) => onResponse req (.reply content) s1

/-- The state in which `annStreaming` continues under ticks of these timings. -/
def annAfterTicks (text content : String) (ts : List UpdaterTiming) : AppState × Option Reveal :=
  match annStreaming text content with
  | (s, none) => (s, none)
  | (s, some r) => runTicks ts r s

/-- Ann has sent `hi`, the reply `a b c` has arrived and its reveal has begun;
she has typed `again` into the chat input. -/
def annRevealing : AppState :=
  { (annStreaming "hi" "a b c").1 with input := "again" }

/-! ## Ids -/

/-- The number a list of decimal digit characters writes, read from the left
on top of `acc`. -/
def readDigits (acc : Nat) (cs : List Char) : Nat :=
  cs.foldl (fun a c => a * 10 + (c.toNat - 48)) acc

/-- The user ids of the store are pairwise distinct. -/
def userIdsUnique (ls : LocalStorage) : Prop := (ls.users.map fun u => u.id).Nodup

/-- The project ids of the store are pairwise distinct. -/
def projectIdsUnique (ls : LocalStorage) : Prop := (ls.projects.map fun p => p.id).Nodup

instance (ls : LocalStorage) : Decidable (userIdsUnique ls) := by
  unfold userIdsUnique; infer_instance

instance (ls : LocalStorage) : Decidable (projectIdsUnique ls) := by
  unfold projectIdsUnique; infer_instance

/-- A creation event: a registration with what was typed and the clock
readings it meets, or a project creation by the current user. -/
inductive Creation where
  | user (name email password : String) (now : Nat) (iso : String) (tokenNow : Nat)
  | project (name prompt : String) (now : Nat) (iso : String)
  deriving DecidableEq, Repr

/-- The clock reading that becomes the id of the user a registration creates. -/
def Creation.userReading : Creation → Option Nat
  | .user _ _ _ now _ _ => some now
  | .project _ _ _ _ => none

/-- The clock reading that becomes the id of the project a creation creates. -/
def Creation.projectReading : Creation → Option Nat
  | .user _ _ _ _ _ _ => none
  | .project _ _ now _ => some now

/-- Typing into the two fields of the new-project form, then `createProject`. -/
def newProject (name prompt : String) (now : Nat) (iso : String) (s : AppState) : AppState :=
  createProject now iso { s with newProjectName := name, newProjectPrompt := prompt }

/-- One creation event. -/
def runCreation (env : Env) : Creation → AppState → AppState
  | .user name email password now iso tokenNow, s =>
    register env name email password now iso tokenNow s
  | .project name prompt now iso, s => newProject name prompt now iso s

/-- A sequence of creation events, in order. -/
def runCreations (env : Env) : List Creation → AppState → AppState
  | [], s => s
  | c :: cs, s => runCreations env cs (runCreation env c s)

/-- Ann registers at reading 1000 and creates two projects, both at reading
2000. -/
def sameReadings : List Creation :=
  [.user "Ann" "ann@x.com" "secret1" 1000 "t1" 1001,
   .project "Bot" "You are terse." 2000 "t2",
   .project "Bot 2" "You are kind." 2000 "t3"]

/-- After `sameReadings` over the empty store Ann logs out and Bob registers,
again at reading 1000. -/
def bobAfterAnn : AppState :=
  register mockEnv "Bob" "bob@x.com" "secret2" 1000 "t4" 1002
    (handleLogout (runCreations mockEnv sameReadings (initialState emptyStore ⟨none⟩)))

/-- The same events at pairwise different readings. -/
def distinctReadings : List Creation :=
  [.user "Ann" "ann@x.com" "secret1" 1000 "t1" 1001,
   .project "Bot" "You are terse." 2000 "t2",
   .project "Bot 2" "You are kind." 2001 "t3",
   .user "Bob" "bob@x.com" "secret2" 3000 "t4" 3001]

/-! ## Tokens -/

/-- What the builtins are relied on for when a token is minted and read back:
`atob` inverts `btoa`, the token object parsed back from its JSON text carries
the `userId` it was built with, and the token of a non-empty id is not the
empty string. -/
def Env.roundTrips (env : Env) : Prop :=
  (∀ s t, env.btoa s = some t → env.atob t = some s) ∧
  (∀ (id : String) (ts : Nat),
    (env.jsonParse (env.jsonStringify
      (.obj [("userId", .str id), ("timestamp", .num (.finite ts 0))]))).bind getUserId
        = some (.str id)) ∧
  (∀ (id : String) (ts : Nat), id ≠ "" → generateToken env id ts ≠ some "")

/-- The stored user `u` is the first stored user carrying its id. -/
def firstWithId (ls : LocalStorage) (u : User) : Prop :=
  (ls.users.find? fun w => w.id == u.id) = some u

instance (ls : LocalStorage) (u : User) : Decidable (firstWithId ls u) := by
  unfold firstWithId; infer_instance

/-! ## Logout, deletion and the project list -/

/-- Ann logs out after one tick of the reveal of `a b c`; the interval is not
cleared, so its closure is still there. -/
def annLogsOut (t : UpdaterTiming) : AppState × Option Reveal :=
  match annAfterTicks "hi" "a b c" [t] with
  | (s, r) => (handleLogout s, r)

/-- The ticks that follow the logout of `annLogsOut`. -/
def annLogsOutThenTicks (t : UpdaterTiming) (ts : List UpdaterTiming) :
    AppState × Option Reveal :=
  match annLogsOut t with
  | (s, none) => (s, none)
  | (s, some r) => runTicks ts r s

/-- Ann deletes the project while the reply `a b c` is being revealed; the
ticks `ts` follow. -/
def annDeletesThenTicks (ts : List UpdaterTiming) : AppState × Option Reveal :=
  match annStreaming "hi" "a b c" with
  | (s, none) => (deleteProject botProject.id s, none)
  | (s, some r) => runTicks ts r (deleteProject botProject.id s)

/-- Every message-log key of the store is the key of a stored project. -/
def noOrphanLogs (ls : LocalStorage) : Prop :=
  ∀ k, ls.messages k ≠ none → ∃ p ∈ ls.projects, p.id = k

/-- While a user is logged in, the in-memory project list is the stored
project collection filtered to that user, in stored order. -/
def projectsInSync (s : AppState) : Prop :=
  ∀ u, s.currentUser = some u →
    s.projects = s.localStorage.projects.filter fun p => p.userId == u.id

/-! ## The stored digest -/

/-- The sixteen characters `toString(16)` writes. -/
def hexDigits : List Char :=
  ['0', '1', '2', '3', '4', '5', '6', '7', '8', '9', 'a', 'b', 'c', 'd', 'e', 'f']

/-- The test double with a digest of 32 bytes, as SHA-256 gives: byte `i` is a
running checksum of the character codes, started at `i`. -/
def sizedEnv : Env :=
  { mockEnv with
    sha256 := fun s =>
      (List.range 32).map fun i => s.data.foldl (fun a c => (a * 31 + c.toNat) % 256) i }

/-- Two overlapping sends: from `annRevealing` Ann sends `again` while `a b c`
is being revealed; the three ticks of that reveal fire, then the second request
settles with the reply `ok` and its reveal runs its single tick. -/
def annOverlapping : AppState :=
  match annStreaming "hi" "a b c", clickSend mockEnv annRevealing with
  | (_, some r1), (s1, some req2) =>
    match onResponse req2 (.reply "ok")
        (runTicks [.atRender, .atRender, .atRender] r1 s1).1 with
    | (s3, some r2) => (runTicks [.atRender] r2 s3).1
    | (s3, none) => s3
  | _, (s1, _) => s1

/-! ## Registration -/

theorem utf16Size_sum (l : List Char) :
    l.length ≤ (l.map utf16Size).sum ∧
      ((∀ c ∈ l, c.toNat < 65536) → (l.map utf16Size).sum = l.length) := by
  induction l with
  | nil => simp
  | cons c cs ih =>
    simp only [List.map_cons, List.sum_cons, List.length_cons, List.mem_cons, forall_eq_or_imp]
    refine ⟨?_, ?_⟩
    · have h1 : 1 ≤ utf16Size c := by unfold utf16Size; split <;> omega
      have h2 := ih.1
      omega
    · intro h
      have h1 : utf16Size c = 1 := by simp [utf16Size, h.1]
      rw [h1, ih.2 h.2]
      omega

/-- The length `handleRegister` tests is at least the number of characters, and
equal to it when no character lies outside the basic plane. -/
theorem length_le_jsLength (s : String) :
    s.length ≤ jsLength s ∧ ((∀ c ∈ s.data, c.toNat < 65536) → jsLength s = s.length) :=
  utf16Size_sum s.data

theorem find_email_isSome (users : List User) (email : String) :
    (users.find? fun u => u.email == email).isSome = true ↔ ∃ u ∈ users, u.email = email := by
  simp [List.find?_isSome]

theorem register_invalid (env : Env) (name email password : String) (now : Nat) (iso : String)
    (tokenNow : Nat) (s : AppState) (h : ¬ fieldsValid name email password) :
    let s1 := register env name email password now iso tokenNow s
    s1.localStorage = s.localStorage ∧ s1.sessionStorage = s.sessionStorage ∧
      s1.currentUser = s.currentUser ∧ s1.view = s.view ∧ s1.error ≠ "" := by
  unfold fieldsValid at h
  simp only [register, handleRegister]
  by_cases h1 : name = "" ∨ email = "" ∨ password = ""
  · simp [h1]
  · have h2 : jsLength password < 6 := by
      by_contra hc
      apply h
      push_neg at h1
      exact ⟨h1.1, h1.2.1, h1.2.2, by omega⟩
    simp [h1, h2]

theorem register_taken (env : Env) (name email password : String) (now : Nat) (iso : String)
    (tokenNow : Nat) (s : AppState) (h : fieldsValid name email password)
    (ht : emailTaken s.localStorage email) :
    let s1 := register env name email password now iso tokenNow s
    s1.localStorage = s.localStorage ∧ s1.sessionStorage = s.sessionStorage ∧
      s1.currentUser = s.currentUser ∧ s1.view = s.view ∧
      s1.error = "Email already registered" := by
  obtain ⟨hn, he, hp, hl⟩ := h
  have hf := (find_email_isSome s.localStorage.users email).2 ht
  have h1 : ¬ (name = "" ∨ email = "" ∨ password = "") := by simp [hn, he, hp]
  have h2 : ¬ jsLength password < 6 := by omega
  simp only [register, handleRegister]
  simp [h1, h2, hf]

theorem register_fresh (env : Env) (name email password : String) (now : Nat) (iso : String)
    (tokenNow : Nat) (s : AppState) (h : fieldsValid name email password)
    (ht : ¬ emailTaken s.localStorage email) :
    let s1 := register env name email password now iso tokenNow s
    let u := newUserOf env name email password now iso
    s1.localStorage.users = s.localStorage.users ++ [u] ∧
      s1.localStorage.projects = s.localStorage.projects ∧
      s1.localStorage.messages = s.localStorage.messages ∧
      s1.error = "" ∧
      (∀ token, generateToken env (toString now) tokenNow = some token →
        s1.sessionStorage.authToken = some token ∧ s1.currentUser = some u ∧
          s1.view = .dashboard) ∧
      (generateToken env (toString now) tokenNow = none →
        s1.sessionStorage = s.sessionStorage ∧ s1.currentUser = s.currentUser ∧
          s1.view = s.view) := by
  obtain ⟨hn, he, hp, hl⟩ := h
  have hf : (s.localStorage.users.find? fun u => u.email == email).isSome = false := by
    rw [Bool.eq_false_iff]
    intro hc
    exact ht ((find_email_isSome _ _).1 hc)
  have h1 : ¬ (name = "" ∨ email = "" ∨ password = "") := by simp [hn, he, hp]
  have h2 : ¬ jsLength password < 6 := by omega
  simp only [register, handleRegister]
  simp only [h1, h2, hf, if_false]
  cases hg : generateToken env (toString now) tokenNow <;> simp [newUserOf]

theorem emailCount_eq_count (ls : LocalStorage) (email : String) :
    emailCount ls email = (ls.users.map fun u => u.email).count email := by
  unfold emailCount
  rw [List.count_eq_countP, List.countP_map, List.countP_eq_length_filter]
  rfl

theorem emailCount_of_taken (ls : LocalStorage) (email : String) (hd : emailsDistinct ls)
    (ht : emailTaken ls email) : emailCount ls email = 1 := by
  rw [emailCount_eq_count]
  apply List.count_eq_one_of_mem hd
  obtain ⟨u, hu, he⟩ := ht
  exact List.mem_map.2 ⟨u, hu, he⟩

theorem register_once_count (env : Env) (name email password : String) (now : Nat)
    (iso : String) (tokenNow : Nat) (s : AppState) (h : fieldsValid name email password)
    (hd : emailsDistinct s.localStorage) :
    let s1 := register env name email password now iso tokenNow s
    emailTaken s1.localStorage email ∧ emailsDistinct s1.localStorage ∧
      emailCount s1.localStorage email = 1 := by
  intro s1
  by_cases ht : emailTaken s.localStorage email
  · have hr := register_taken env name email password now iso tokenNow s h ht
    have hls : s1.localStorage = s.localStorage := hr.1
    rw [hls]
    exact ⟨ht, hd, emailCount_of_taken _ _ hd ht⟩
  · have hr := register_fresh env name email password now iso tokenNow s h ht
    have hu : s1.localStorage.users =
        s.localStorage.users ++ [newUserOf env name email password now iso] := hr.1
    have hfree : email ∉ s.localStorage.users.map fun u => u.email := by
      intro hm
      obtain ⟨u, hu, he⟩ := List.mem_map.1 hm
      exact ht ⟨u, hu, he⟩
    have hd1 : emailsDistinct s1.localStorage := by
      unfold emailsDistinct
      rw [hu, List.map_append, List.nodup_append]
      refine ⟨hd, by simp, ?_⟩
      intro a ha hb
      simp [newUserOf] at hb
      subst hb
      exact hfree ha
    have ht1 : emailTaken s1.localStorage email :=
      ⟨newUserOf env name email password now iso, by rw [hu]; simp, rfl⟩
    exact ⟨ht1, hd1, emailCount_of_taken _ _ hd1 ht1⟩

/-- C1: a registration whose fields pass validation and whose email some stored
user already has fails with the duplicate-email error and leaves the persistent
store, the session token and the current user as they were; so from a store
with pairwise distinct emails, two registrations of one email end with the
second one refused and exactly one user record of that email. -/
theorem register_duplicate_email (env : Env) (s : AppState) (name email password : String)
    (now : Nat) (iso : String) (tokenNow : Nat) (hv : fieldsValid name email password) :
    (emailTaken s.localStorage email →
      (register env name email password now iso tokenNow s).error = "Email already registered" ∧
      (register env name email password now iso tokenNow s).localStorage = s.localStorage ∧
      (register env name email password now iso tokenNow s).sessionStorage = s.sessionStorage ∧
      (register env name email password now iso tokenNow s).currentUser = s.currentUser) ∧
    (emailsDistinct s.localStorage →
      ∀ (name2 password2 : String) (now2 : Nat) (iso2 : String) (tokenNow2 : Nat),
        fieldsValid name2 email password2 →
        (register env name2 email password2 now2 iso2 tokenNow2
          (register env name email password now iso tokenNow s)).error
            = "Email already registered" ∧
        (register env name2 email password2 now2 iso2 tokenNow2
          (register env name email password now iso tokenNow s)).localStorage
            = (register env name email password now iso tokenNow s).localStorage ∧
        emailCount (register env name2 email password2 now2 iso2 tokenNow2
          (register env name email password now iso tokenNow s)).localStorage email = 1) := by
  constructor
  · intro ht
    have hr := register_taken env name email password now iso tokenNow s hv ht
    exact ⟨hr.2.2.2.2, hr.1, hr.2.1, hr.2.2.1⟩
  · intro hd name2 password2 now2 iso2 tokenNow2 hv2
    have h1 := register_once_count env name email password now iso tokenNow s hv hd
    have hr := register_taken env name2 email password2 now2 iso2 tokenNow2
      (register env name email password now iso tokenNow s) hv2 h1.1
    refine ⟨hr.2.2.2.2, hr.1, ?_⟩
    have hls := hr.1
    simp only at hls
    rw [hls]
    exact h1.2.2

/-- C1 at a concrete input: Ann registers twice against the empty store. -/
theorem register_duplicate_email_witness :
    (register mockEnv "Ann B" "ann@x.com" "secret2" 2000 "t2" 2001
      (register mockEnv "Ann" "ann@x.com" "secret1" 1000 "t1" 1001
        (initialState emptyStore ⟨none⟩))).error = "Email already registered" ∧
    emailCount (register mockEnv "Ann B" "ann@x.com" "secret2" 2000 "t2" 2001
      (register mockEnv "Ann" "ann@x.com" "secret1" 1000 "t1" 1001
        (initialState emptyStore ⟨none⟩))).localStorage "ann@x.com" = 1 :=
  have h := (register_duplicate_email mockEnv (initialState emptyStore ⟨none⟩)
    "Ann" "ann@x.com" "secret1" 1000 "t1" 1001 (by decide)).2 (by decide)
    "Ann B" "secret2" 2000 "t2" 2001 (by decide)
  ⟨h.1, h.2.2⟩

/-- The three outcomes of a registration. -/
theorem register_outcome (env : Env) (s : AppState) (name email password : String)
    (now : Nat) (iso : String) (tokenNow : Nat) :
    ((register env name email password now iso tokenNow s).error = "" ↔
      fieldsValid name email password ∧ ¬ emailTaken s.localStorage email) ∧
    (fieldsValid name email password ∧ ¬ emailTaken s.localStorage email →
      (register env name email password now iso tokenNow s).localStorage.users =
        s.localStorage.users ++
          [{ id := toString now, name := name, email := email,
             password := hashPassword env password, createdAt := iso }] ∧
      ∀ token, generateToken env (toString now) tokenNow = some token →
        (register env name email password now iso tokenNow s).sessionStorage.authToken
          = some token ∧
        (register env name email password now iso tokenNow s).currentUser =
          some { id := toString now, name := name, email := email,
                 password := hashPassword env password, createdAt := iso }) ∧
    (¬ (fieldsValid name email password ∧ ¬ emailTaken s.localStorage email) →
      (register env name email password now iso tokenNow s).localStorage = s.localStorage ∧
      (register env name email password now iso tokenNow s).sessionStorage = s.sessionStorage ∧
      (register env name email password now iso tokenNow s).currentUser = s.currentUser) := by
  by_cases hv : fieldsValid name email password
  · by_cases ht : emailTaken s.localStorage email
    · have hr := register_taken env name email password now iso tokenNow s hv ht
      simp only at hr
      refine ⟨?_, ?_, ?_⟩
      · rw [hr.2.2.2.2]
        simp [ht]
      · intro h
        exact absurd ht h.2
      · intro _
        exact ⟨hr.1, hr.2.1, hr.2.2.1⟩
    · have hr := register_fresh env name email password now iso tokenNow s hv ht
      simp only [newUserOf] at hr
      refine ⟨?_, ?_, ?_⟩
      · simp [hr.2.2.2.1, hv, ht]
      · intro _
        refine ⟨hr.1, ?_⟩
        intro token hg
        exact ⟨(hr.2.2.2.2.1 token hg).1, (hr.2.2.2.2.1 token hg).2.1⟩
      · intro h
        exact absurd ⟨hv, ht⟩ h
  · have hr := register_invalid env name email password now iso tokenNow s hv
    simp only at hr
    refine ⟨?_, ?_, ?_⟩
    · constructor
      · intro h
        exact absurd h hr.2.2.2.2
      · intro h
        exact absurd h.1 hv
    · intro h
      exact absurd h.1 hv
    · intro _
      exact ⟨hr.1, hr.2.1, hr.2.2.1⟩

theorem digitChar_mem_hexDigits (k : Nat) (h : k < 16) : Nat.digitChar k ∈ hexDigits := by
  interval_cases k <;> decide

theorem toDigitsCore_hex (fuel n : Nat) (ds : List Char) (h : ∀ c ∈ ds, c ∈ hexDigits) :
    ∀ c ∈ Nat.toDigitsCore 16 fuel n ds, c ∈ hexDigits := by
  induction fuel generalizing n ds with
  | zero => simpa [Nat.toDigitsCore] using h
  | succ fuel ih =>
    have hd : ∀ c ∈ Nat.digitChar (n % 16) :: ds, c ∈ hexDigits := by
      intro c hc
      rcases List.mem_cons.1 hc with h1 | h1
      · rw [h1]
        exact digitChar_mem_hexDigits _ (Nat.mod_lt _ (by omega))
      · exact h c h1
    simp only [Nat.toDigitsCore]
    split
    · exact hd
    · exact ih _ _ hd

theorem hexByte_hex (b : Nat) : ∀ c ∈ (hexByte b).data, c ∈ hexDigits := by
  intro c hc
  simp only [hexByte, List.mem_append, List.mem_replicate] at hc
  rcases hc with ⟨_, h1⟩ | h1
  · rw [h1]; decide
  · exact toDigitsCore_hex _ _ [] (by simp) c h1

theorem hexByte_length (b : Nat) (h : b < 256) : (hexByte b).length = 2 := by
  interval_cases b <;> rfl

theorem join_mem (l : List String) (c : Char) :
    c ∈ (String.join l).data ↔ ∃ s ∈ l, c ∈ s.data := by
  rw [String.join_eq]
  simp [List.mem_flatten]

theorem join_length (l : List String) (n : Nat) (h : ∀ s ∈ l, s.length = n) :
    (String.join l).length = n * l.length := by
  rw [String.join_eq]
  simp only [String.length]
  induction l with
  | nil => simp
  | cons s ss ih =>
    have hs := h s (List.mem_cons_self _ _)
    have hss := ih fun t ht => h t (List.mem_cons_of_mem _ ht)
    simp only [String.length] at hs
    simp only [List.map_cons, List.flatten_cons, List.length_append, List.length_cons, hs, hss]
    rw [Nat.mul_succ]
    omega

theorem hashPassword_hex (env : Env) (password : String) :
    ∀ c ∈ (String.join ((env.sha256 password).map hexByte)).data, c ∈ hexDigits := by
  intro c hc
  obtain ⟨w, hw, hcw⟩ := (join_mem _ c).1 hc
  obtain ⟨b, _, hb⟩ := List.mem_map.1 hw
  rw [← hb] at hcw
  exact hexByte_hex b c hcw

theorem hashPassword_length (env : Env) (password : String)
    (h : ∀ b ∈ env.sha256 password, b < 256) :
    (String.join ((env.sha256 password).map hexByte)).length
      = 2 * (env.sha256 password).length := by
  rw [join_length _ 2, List.length_map]
  intro w hw
  obtain ⟨b, hb, hbw⟩ := List.mem_map.1 hw
  rw [← hbw]
  exact hexByte_length b (h b hb)

theorem hexByte_eq (b : Nat) (h : b < 256) :
    hexByte b = String.mk [Nat.digitChar (b / 16), Nat.digitChar (b % 16)] := by
  interval_cases b <;> rfl

theorem hashPassword_digits (env : Env) (password : String)
    (h : ∀ b ∈ env.sha256 password, b < 256) :
    String.join ((env.sha256 password).map hexByte) =
      String.mk ((env.sha256 password).map fun b =>
        [Nat.digitChar (b / 16), Nat.digitChar (b % 16)]).flatten := by
  rw [String.join_eq, List.map_map]
  congr 2
  apply List.map_congr_left
  intro b hb
  simp only [Function.comp_apply, hexByte_eq b (h b hb)]

/-- C10: a registration reports no error exactly when name, email and password
are non-empty, the password has length at least 6 (`password.length`, UTF-16
code units) and no stored user has the email.  In that case exactly one user
record is appended, carrying the given name and email and, as password, the
digest bytes of the password written in hexadecimal; when the token is minted
it is stored and the new user becomes the current user.  In every other case
the persistent store, the session token and the current user are unchanged.
The stored password field is the digest and not the plaintext: two passwords
of one digest leave the same user collection, the field holds hexadecimal
digits only, so it differs from every password that has another character, it
is made of the two hexadecimal digits of each digest byte, in order, and for a
digest of 32 bytes, as SHA-256 gives, it has 64 characters, so it differs from
every password of another length. -/
theorem register_succeeds_iff (env : Env) (s : AppState) (name email password : String)
    (now : Nat) (iso : String) (tokenNow : Nat) :
    ((register env name email password now iso tokenNow s).error = "" ↔
      fieldsValid name email password ∧ ¬ emailTaken s.localStorage email) ∧
    (fieldsValid name email password ∧ ¬ emailTaken s.localStorage email →
      (register env name email password now iso tokenNow s).localStorage.users =
        s.localStorage.users ++
          [{ id := toString now, name := name, email := email,
             password := String.join ((env.sha256 password).map hexByte),
             createdAt := iso }] ∧
      ∀ token, generateToken env (toString now) tokenNow = some token →
        (register env name email password now iso tokenNow s).sessionStorage.authToken
          = some token ∧
        (register env name email password now iso tokenNow s).currentUser =
          some { id := toString now, name := name, email := email,
                 password := String.join ((env.sha256 password).map hexByte),
                 createdAt := iso }) ∧
    (¬ (fieldsValid name email password ∧ ¬ emailTaken s.localStorage email) →
      (register env name email password now iso tokenNow s).localStorage = s.localStorage ∧
      (register env name email password now iso tokenNow s).sessionStorage = s.sessionStorage ∧
      (register env name email password now iso tokenNow s).currentUser = s.currentUser) ∧
    (∀ password2 : String, fieldsValid name email password2 →
      fieldsValid name email password → env.sha256 password2 = env.sha256 password →
      (register env name email password2 now iso tokenNow s).localStorage.users =
        (register env name email password now iso tokenNow s).localStorage.users) ∧
    (∀ c ∈ (String.join ((env.sha256 password).map hexByte)).data, c ∈ hexDigits) ∧
    ((∃ c ∈ password.data, c ∉ hexDigits) →
      String.join ((env.sha256 password).map hexByte) ≠ password) ∧
    ((∀ b ∈ env.sha256 password, b < 256) →
      String.join ((env.sha256 password).map hexByte) =
        String.mk ((env.sha256 password).map fun b =>
          [Nat.digitChar (b / 16), Nat.digitChar (b % 16)]).flatten) ∧
    ((env.sha256 password).length = 32 → (∀ b ∈ env.sha256 password, b < 256) →
      (String.join ((env.sha256 password).map hexByte)).length = 64 ∧
      (password.length ≠ 64 → String.join ((env.sha256 password).map hexByte) ≠ password)) := by
  have ho := register_outcome env s name email password now iso tokenNow
  refine ⟨ho.1, ho.2.1, ho.2.2, ?_, hashPassword_hex env password, ?_,
    hashPassword_digits env password, ?_⟩
  · intro password2 hv2 hv hd
    have ho2 := register_outcome env s name email password2 now iso tokenNow
    by_cases ht : emailTaken s.localStorage email
    · rw [(ho.2.2 fun h => h.2 ht).1, (ho2.2.2 fun h => h.2 ht).1]
    · rw [(ho.2.1 ⟨hv, ht⟩).1, (ho2.2.1 ⟨hv2, ht⟩).1]
      simp only [hashPassword, hd]
  · rintro ⟨c, hc, hn⟩ heq
    apply hn
    have := hashPassword_hex env password c
    rw [heq] at this
    exact this hc
  · intro h32 hb
    have hl := hashPassword_length env password hb
    rw [h32] at hl
    refine ⟨hl, ?_⟩
    intro hne heq
    rw [heq] at hl
    exact hne hl

/-- C10 at a concrete input: Ann registers against the empty store with a
digest of 32 bytes; the one stored record carries 64 hexadecimal characters,
which are not her password. -/
theorem register_succeeds_iff_witness :
    (register sizedEnv "Ann" "ann@x.com" "secret1" 1000 "t1" 1001
        (initialState emptyStore ⟨none⟩)).localStorage.users =
      [{ id := "1000", name := "Ann", email := "ann@x.com",
         password := String.join ((sizedEnv.sha256 "secret1").map hexByte),
         createdAt := "t1" }] ∧
    (String.join ((sizedEnv.sha256 "secret1").map hexByte)).length = 64 ∧
    String.join ((sizedEnv.sha256 "secret1").map hexByte) ≠ "secret1" :=
  have h := register_succeeds_iff sizedEnv (initialState emptyStore ⟨none⟩)
    "Ann" "ann@x.com" "secret1" 1000 "t1" 1001
  have h7 := h.2.2.2.2.2.2.2 (by decide) (by decide)
  ⟨(h.2.1 ⟨by decide, by decide⟩).1, h7.1, h7.2 (by decide)⟩

/-! ## Login -/

theorem login_rejected (env : Env) (s : AppState) (email password : String) (tokenNow : Nat)
    (h : ∀ u ∈ s.localStorage.users, u.email = email → u.password ≠ hashPassword env password) :
    login env email password tokenNow s =
      { s with loginEmail := email, loginPassword := password,
               error := "Invalid email or password" } := by
  have hf : (s.localStorage.users.find? fun u =>
      u.email == email && u.password == hashPassword env password) = none := by
    rw [List.find?_eq_none]
    intro u hu
    simp only [Bool.and_eq_true, beq_iff_eq, not_and]
    exact h u hu
  simp only [login, handleLogin]
  rw [hf]

/-- C2: a login with a stored email and a password whose digest differs from
the stored one, and a login with an email no stored user has, end alike: the
same error message, the session store, the current user, the view and the
persistent store as they were before. -/
theorem login_failure_indistinguishable (env : Env) (s : AppState)
    (email1 password1 email2 password2 : String) (tokenNow1 tokenNow2 : Nat)
    (hstored : emailTaken s.localStorage email1)
    (hwrong : ∀ u ∈ s.localStorage.users, u.email = email1 →
      u.password ≠ hashPassword env password1)
    (hunknown : ¬ emailTaken s.localStorage email2) :
    (login env email1 password1 tokenNow1 s).error = "Invalid email or password" ∧
    (login env email2 password2 tokenNow2 s).error = "Invalid email or password" ∧
    (login env email1 password1 tokenNow1 s).sessionStorage = s.sessionStorage ∧
    (login env email2 password2 tokenNow2 s).sessionStorage = s.sessionStorage ∧
    (login env email1 password1 tokenNow1 s).currentUser = s.currentUser ∧
    (login env email2 password2 tokenNow2 s).currentUser = s.currentUser ∧
    (login env email1 password1 tokenNow1 s).view = s.view ∧
    (login env email2 password2 tokenNow2 s).view = s.view ∧
    (login env email1 password1 tokenNow1 s).localStorage = s.localStorage ∧
    (login env email2 password2 tokenNow2 s).localStorage = s.localStorage ∧
    { login env email1 password1 tokenNow1 s with loginEmail := "", loginPassword := "" } =
      { login env email2 password2 tokenNow2 s with loginEmail := "", loginPassword := "" } := by
  have _ := hstored
  have h2 : ∀ u ∈ s.localStorage.users, u.email = email2 →
      u.password ≠ hashPassword env password2 := by
    intro u hu he
    exact absurd ⟨u, hu, he⟩ hunknown
  rw [login_rejected env s email1 password1 tokenNow1 hwrong,
    login_rejected env s email2 password2 tokenNow2 h2]
  simp

/-- C2 at a concrete input: Ann with a wrong password, and an unknown email. -/
theorem login_failure_indistinguishable_witness :
    (login mockEnv "ann@x.com" "secret9" 3000 annLoggedOut).error
      = "Invalid email or password" ∧
    (login mockEnv "bob@x.com" "secret1" 3000 annLoggedOut).error
      = "Invalid email or password" ∧
    (login mockEnv "ann@x.com" "secret9" 3000 annLoggedOut).sessionStorage
      = annLoggedOut.sessionStorage ∧
    (login mockEnv "bob@x.com" "secret1" 3000 annLoggedOut).sessionStorage
      = annLoggedOut.sessionStorage :=
  have h := login_failure_indistinguishable mockEnv annLoggedOut
    "ann@x.com" "secret9" "bob@x.com" "secret1" 3000 3000
    ⟨_, List.mem_singleton.2 rfl, rfl⟩ (by decide) (by decide)
  ⟨h.1, h.2.1, h.2.2.1, h.2.2.2.1⟩

/-! ## Projects -/

/-- C3: right after `deleteProject p` the project collection holds no record of
id `p`, the store has no message log under the key of `p`, and the in-memory
project list holds no record of id `p` either; no assumption is made on the
selected project. -/
theorem deleteProject_leaves_no_trace (s : AppState) (p : String) :
    (∀ q ∈ (deleteProject p s).localStorage.projects, q.id ≠ p) ∧
    (deleteProject p s).localStorage.messages p = none ∧
    (∀ q ∈ (deleteProject p s).projects, q.id ≠ p) := by
  simp only [deleteProject]
  by_cases h : (s.selectedProject.map fun q => q.id) = some p <;>
    simp [h, LocalStorage.removeMessages]

/-! ## Session resumption -/

theorem strictEqStr_eq_true (s : String) (v : JsVal) :
    strictEqStr s v = true ↔ v = .str s := by
  cases v
  case str t =>
    simp only [strictEqStr, beq_iff_eq, JsVal.str.injEq]
    exact eq_comm
  all_goals simp [strictEqStr]

theorem verifyToken_eq_str (env : Env) (token id : String) :
    verifyToken env token = .str id ↔ verifyTokenTry env token = some (.str id) := by
  unfold verifyToken
  cases h : verifyTokenTry env token <;> simp

theorem verifyTokenTry_garbage (env : Env) (token : String) (h : garbageToken env token)
    (id : String) : verifyTokenTry env token ≠ some (.str id) := by
  unfold verifyTokenTry
  rcases h with h | ⟨text, h1, h2⟩ | ⟨text, decoded, h1, h2, h3⟩
  · simp [h]
  · simp [h1, h2]
  · simpa [h1, h2] using h3 id

theorem resumeSession_unchanged (env : Env) (s : AppState) (token : String)
    (ht : s.sessionStorage.authToken = some token)
    (h : ∀ u ∈ s.localStorage.users, verifyToken env token ≠ .str u.id) :
    resumeSession env s = s := by
  have hf : (s.localStorage.users.find? fun u =>
      strictEqStr u.id (verifyToken env token)) = none := by
    rw [List.find?_eq_none]
    intro u hu
    rw [strictEqStr_eq_true]
    exact h u hu
  unfold resumeSession
  rw [ht]
  simp only [hf]
  split <;> [rfl; split <;> rfl]

theorem resumeSession_currentUser (env : Env) (s : AppState) (token : String) (u : User)
    (ht : s.sessionStorage.authToken = some token) (h0 : s.currentUser = none)
    (hu : (resumeSession env s).currentUser = some u) :
    u ∈ s.localStorage.users ∧ verifyToken env token = .str u.id := by
  unfold resumeSession at hu
  rw [ht] at hu
  simp only at hu
  split at hu
  · rw [h0] at hu; cases hu
  · split at hu
    · split at hu
      · rename_i user hfind
        simp only [loadProjects] at hu
        cases hu
        have hm := List.mem_of_find?_eq_some hfind
        have hp := List.find?_some hfind
        exact ⟨hm, (strictEqStr_eq_true _ _).1 hp⟩
      · rw [h0] at hu; cases hu
    · rw [h0] at hu; cases hu

/-- C6: for every string held as the session token and every persistent store,
the startup effect is a total function (`verifyToken` catches what `atob`,
`JSON.parse` and the property read throw).  When the token is garbage, or
decodes to anything that is not the id of a stored user, the state is the
mount state: current user null, view on login.  A current user is set only to
a stored user whose id is the `userId` the token decodes to. -/
theorem resume_garbage_token (env : Env) (ls : LocalStorage) (token : String) :
    (garbageToken env token →
      startup env ls ⟨some token⟩ = initialState ls ⟨some token⟩) ∧
    ((∀ u ∈ ls.users, verifyTokenTry env token ≠ some (.str u.id)) →
      (startup env ls ⟨some token⟩).currentUser = none ∧
      (startup env ls ⟨some token⟩).view = .login) ∧
    (∀ u, (startup env ls ⟨some token⟩).currentUser = some u →
      u ∈ ls.users ∧ verifyTokenTry env token = some (.str u.id) ∧
      (startup env ls ⟨some token⟩).view = .dashboard) := by
  have hun : (∀ u ∈ ls.users, verifyTokenTry env token ≠ some (.str u.id)) →
      startup env ls ⟨some token⟩ = initialState ls ⟨some token⟩ := by
    intro h
    apply resumeSession_unchanged env _ token rfl
    intro u hu hc
    exact h u hu ((verifyToken_eq_str env token u.id).1 hc)
  refine ⟨?_, ?_, ?_⟩
  · intro hg
    exact hun fun u _ => verifyTokenTry_garbage env token hg u.id
  · intro h
    rw [hun h]
    exact ⟨rfl, rfl⟩
  · intro u hu
    have h := resumeSession_currentUser env (initialState ls ⟨some token⟩) token u rfl rfl hu
    refine ⟨h.1, (verifyToken_eq_str env token u.id).1 h.2, ?_⟩
    by_contra hv
    have hne : startup env ls ⟨some token⟩ ≠ initialState ls ⟨some token⟩ := by
      intro hc
      rw [hc] at hu
      cases hu
    apply hne
    apply resumeSession_unchanged env _ token rfl
    intro w hw hc
    apply hv
    have hf : ∃ user, ((initialState ls ⟨some token⟩).localStorage.users.find? fun x =>
        strictEqStr x.id (verifyToken env token)) = some user := by
      rw [← Option.isSome_iff_exists, List.find?_isSome]
      exact ⟨w, hw, (strictEqStr_eq_true _ _).2 hc⟩
    obtain ⟨user, hfu⟩ := hf
    have htr : (verifyToken env token).truthy = true := by
      by_contra hnt
      have : startup env ls ⟨some token⟩ = initialState ls ⟨some token⟩ := by
        simp only [startup, resumeSession, initialState]
        simp [hnt]
      exact hne this
    have htok : token ≠ "" := by
      intro he
      apply hne
      simp [startup, resumeSession, initialState, he]
    simp only [startup, resumeSession]
    simp only [initialState] at hfu
    simp [initialState, htok, htr, hfu, loadProjects]

/-! ## The reveal -/

theorem tick_last (t : UpdaterTiming) (r : Reveal) (s : AppState)
    (h : r.words.length ≤ r.i + 1) : tick t r s = (commitState r s, none) := by
  simp only [tick, commitState, ge_iff_le, h, if_true]

theorem tick_mid (t : UpdaterTiming) (r : Reveal) (s : AppState)
    (h : r.i + 1 < r.words.length) :
    tick t r s =
      ({ s with streamedContent :=
          match t with
          | .atCall => revealUpdater r s.streamedContent
          | .atRender => revealUpdater { r with i := r.i + 1 } s.streamedContent },
        some { r with i := r.i + 1 }) := by
  have h2 : ¬ r.words.length ≤ r.i + 1 := by omega
  simp only [tick, ge_iff_le, h2, if_false]

/-- The reveal, whatever the timing of its updaters, reaches the commit at the
tick whose number is the number of words. -/
theorem runTicks_complete (ts : List UpdaterTiming) (r : Reveal) (s : AppState)
    (hi : r.i < r.words.length) (hl : ts.length = r.words.length - r.i) :
    runTicks ts r s = (commitState r s, none) := by
  induction ts generalizing r s with
  | nil => simp at hl; omega
  | cons t ts ih =>
    simp only [List.length_cons] at hl
    by_cases h : r.i + 1 < r.words.length
    · simp only [runTicks, tick_mid t r s h]
      rw [ih]
      · rfl
      · exact h
      · simp only; omega
    · have h2 : r.words.length ≤ r.i + 1 := by omega
      simp only [runTicks, tick_last t r s h2]

/-- Before the last tick the reveal touches nothing but the buffer. -/
theorem runTicks_partial (ts : List UpdaterTiming) (r : Reveal) (s : AppState)
    (hl : r.i + ts.length < r.words.length) :
    ∃ buffer, runTicks ts r s =
      ({ s with streamedContent := buffer }, some { r with i := r.i + ts.length }) := by
  induction ts generalizing r s with
  | nil => exact ⟨s.streamedContent, rfl⟩
  | cons t ts ih =>
    simp only [List.length_cons] at hl
    have h : r.i + 1 < r.words.length := by omega
    simp only [runTicks, tick_mid t r s h]
    obtain ⟨b, hb⟩ := ih { r with i := r.i + 1 }
      { s with streamedContent :=
          match t with
          | .atCall => revealUpdater r s.streamedContent
          | .atRender => revealUpdater { r with i := r.i + 1 } s.streamedContent }
      (by simp only; omega)
    refine ⟨b, ?_⟩
    rw [hb]
    simp only [List.length_cons, Prod.mk.injEq, Option.some.injEq, Reveal.mk.injEq, true_and,
      and_true]
    omega

theorem splitSpace_length_pos (text : String) : 0 < (splitSpace text).length := by
  unfold splitSpace
  rw [List.length_map]
  exact List.length_pos.2 (List.splitOnP_ne_nil _ _)

theorem joinSpace_cons_cons (w v : String) (ws : List String) :
    joinSpace (w :: v :: ws) = w ++ " " ++ joinSpace (v :: ws) := rfl

theorem joinSpace_append_singleton (xs : List String) (w : String) :
    joinSpace (xs ++ [w]) = if xs = [] then w else joinSpace xs ++ " " ++ w := by
  induction xs with
  | nil => rfl
  | cons x xs ih =>
    cases xs with
    | nil => rfl
    | cons y ys =>
      simp only [List.cons_append, joinSpace_cons_cons] at ih ⊢
      rw [ih]
      simp [String.append_assoc]

theorem joinSpace_take_succ (ws : List String) (i : Nat) (h : i < ws.length) :
    joinSpace (ws.take (i + 1)) =
      joinSpace (ws.take i) ++ (if i = 0 then "" else " ") ++ ws.getD i "undefined" := by
  have hg : ws.getD i "undefined" = ws[i] := by
    simp [List.getD, List.getElem?_eq_getElem h]
  rw [hg, List.take_succ, List.getElem?_eq_getElem h]
  simp only [Option.toList_some]
  rw [joinSpace_append_singleton]
  by_cases hi : i = 0
  · subst hi
    simp [joinSpace]
  · have hne : ws.take i ≠ [] := by
      intro hc
      rw [List.take_eq_nil_iff] at hc
      rcases hc with h0 | h0
      · exact hi h0
      · subst h0
        simp at h
    simp [hi, hne]

theorem joinSpace_data (ls : List (List Char)) :
    (joinSpace (ls.map String.mk)).data = [' '].intercalate ls := by
  induction ls with
  | nil => rfl
  | cons x xs ih =>
    cases xs with
    | nil => simp [joinSpace, List.intercalate]
    | cons y ys =>
      simp only [List.map_cons, joinSpace_cons_cons] at ih ⊢
      simp only [String.data_append, ih]
      simp [List.intercalate]

/-- The words of a text joined by single spaces give the text back. -/
theorem joinSpace_splitSpace (text : String) : joinSpace (splitSpace text) = text := by
  apply String.ext
  unfold splitSpace
  rw [joinSpace_data, List.intercalate_splitOn]

/-- With every updater applied during the call, the buffer after each tick
before the last holds the words revealed so far, joined by single spaces. -/
theorem runTicks_atCall (k : Nat) (r : Reveal) (s : AppState)
    (hl : r.i + k < r.words.length)
    (hb : s.streamedContent = joinSpace (r.words.take r.i)) :
    runTicks (List.replicate k .atCall) r s =
      ({ s with streamedContent := joinSpace (r.words.take (r.i + k)) },
        some { r with i := r.i + k }) := by
  induction k generalizing r s with
  | zero => simp [runTicks, ← hb]
  | succ k ih =>
    have h : r.i + 1 < r.words.length := by omega
    simp only [List.replicate_succ, runTicks, tick_mid .atCall r s h]
    rw [ih]
    · have e : r.i + 1 + k = r.i + (k + 1) := by omega
      simp only [e]
    · show r.i + 1 + k < r.words.length
      omega
    · show revealUpdater r s.streamedContent = joinSpace (r.words.take (r.i + 1))
      simp only [revealUpdater, hb]
      rw [joinSpace_take_succ r.words r.i (by omega)]

/-! ## Sending -/

theorem sendMessage_issued (env : Env) (s : AppState) (p : Project)
    (hkey : env.apiKey.getD "" ≠ "") (hsel : s.selectedProject = some p)
    (hM : isBlank s.input = false) :
    sendMessage env s =
      ({ s with messages := s.messages ++ [{ role := .user, content := s.input }],
                input := "", loading := true, error := "" },
        some { newMessages := s.messages ++ [{ role := .user, content := s.input }],
               selectedProject := p }) := by
  simp only [sendMessage, hsel]
  simp [hM, hkey]

theorem sendMessage_localStorage (env : Env) (s : AppState) :
    (sendMessage env s).1.localStorage = s.localStorage := by
  unfold sendMessage
  split
  · rfl
  · split
    · rfl
    · split <;> rfl

theorem onError_ne_empty (message : String) (s : AppState) : (onError message s).error ≠ "" := by
  unfold onError
  by_cases h : message = ""
  · simp only [h, if_true]
    decide
  · simp only [h, if_false]
    exact h

theorem httpErrorMessage_ne_empty (status : Nat) (bodyMessage : Option String) :
    httpErrorMessage status bodyMessage ≠ "" := by
  unfold httpErrorMessage
  split
  · decide
  · split
    · decide
    · split
      · decide
      · split
        · intro hc
          have h := congrArg String.length hc
          simp only [String.length_append] at h
          have h2 : "API Error: ".length = 11 := by decide
          have h3 : "".length = 0 := by decide
          omega
        · assumption

/-- What a settled failure does to the state. -/
theorem onResponse_failure (req : PendingRequest) (f : FetchOutcome) (s : AppState)
    (hf : f.isFailure = true) :
    ∃ message, onResponse req f s = (onError message s, none) := by
  cases f with
  | rejected m => exact ⟨m, rfl⟩
  | notOk st b => exact ⟨_, rfl⟩
  | malformed m => exact ⟨m, rfl⟩
  | reply c => simp [FetchOutcome.isFailure] at hf

theorem runSend_failure (env : Env) (timing : Nat → UpdaterTiming) (s : AppState)
    (p : Project) (text : String) (f : FetchOutcome)
    (hkey : env.apiKey.getD "" ≠ "") (hsel : s.selectedProject = some p)
    (hM : isBlank text = false) (hf : f.isFailure = true) :
    ∃ message, runSend env timing text f s =
      onError message
        { s with messages := s.messages ++ [{ role := .user, content := text }],
                 input := "", loading := true, error := "" } := by
  obtain ⟨message, hm⟩ := onResponse_failure
    { newMessages := s.messages ++ [{ role := .user, content := text }], selectedProject := p } f
    { s with messages := s.messages ++ [{ role := .user, content := text }],
             input := "", loading := true, error := "" } hf
  refine ⟨message, ?_⟩
  unfold runSend
  rw [sendMessage_issued env { s with input := text } p hkey hsel hM]
  simp only
  rw [hm]

theorem runSend_reply (env : Env) (timing : Nat → UpdaterTiming) (s : AppState)
    (p : Project) (text content : String)
    (hkey : env.apiKey.getD "" ≠ "") (hsel : s.selectedProject = some p)
    (hM : isBlank text = false) :
    runSend env timing text (.reply content) s =
      { s with
        input := ""
        loading := false
        error := ""
        streaming := false
        streamedContent := ""
        messages := s.messages ++
          [{ role := .user, content := text }, { role := .assistant, content := content }]
        localStorage := s.localStorage.setMessages p.id
          (s.messages ++
            [{ role := .user, content := text }, { role := .assistant, content := content }]) } := by
  unfold runSend
  rw [sendMessage_issued env { s with input := text } p hkey hsel hM]
  simp only [onResponse]
  rw [runTicks_complete]
  · simp [commitState]
  · exact splitSpace_length_pos content
  · simp

theorem startup_localStorage (env : Env) (ls : LocalStorage) (ss : SessionStorage) :
    (startup env ls ss).localStorage = ls := by
  unfold startup resumeSession
  split
  · rfl
  · split
    · rfl
    · simp only
      split
      · split <;> rfl
      · rfl

/-- C4: for a project `p` whose visible history is its persisted log, a
non-blank text and any reply text, after the send succeeds and the reveal has
run to its last tick (whatever the timing of its updaters) the reveal is over,
and `selectProject p` on a state freshly started over the resulting stores, or
on any state holding the resulting persistent store, shows the old log followed
by the user message and the assistant reply, in that order. -/
theorem send_then_reload (env : Env) (timing : Nat → UpdaterTiming) (s : AppState)
    (p : Project) (text content : String)
    (hkey : env.apiKey.getD "" ≠ "") (hsel : s.selectedProject = some p)
    (hvis : s.messages = s.localStorage.readMessages p.id)
    (hM : isBlank text = false) :
    (runSend env timing text (.reply content) s).streaming = false ∧
    (∀ ss, (selectProject p
        (startup env (runSend env timing text (.reply content) s).localStorage ss)).messages =
      s.localStorage.readMessages p.id ++
        [{ role := .user, content := text }, { role := .assistant, content := content }]) ∧
    (∀ fresh : AppState,
      fresh.localStorage = (runSend env timing text (.reply content) s).localStorage →
      (selectProject p fresh).messages =
        s.localStorage.readMessages p.id ++
          [{ role := .user, content := text }, { role := .assistant, content := content }]) := by
  have hr := runSend_reply env timing s p text content hkey hsel hM
  have hfresh : ∀ fresh : AppState,
      fresh.localStorage = (runSend env timing text (.reply content) s).localStorage →
      (selectProject p fresh).messages =
        s.localStorage.readMessages p.id ++
          [{ role := .user, content := text }, { role := .assistant, content := content }] := by
    intro fresh hls
    simp only [selectProject, hls, hr, LocalStorage.readMessages, LocalStorage.setMessages,
      if_true, Option.getD_some, hvis]
  refine ⟨by rw [hr], ?_, hfresh⟩
  intro ss
  exact hfresh _ (startup_localStorage env _ ss)

/-- C4 at the end-to-end scenario: Ann registers, creates the project Bot,
sends `hi` and receives `hi there`; the reloaded log holds the two messages and
the stored project list is the one project named Bot. -/
theorem send_then_reload_witness :
    (selectProject botProject
        (startup mockEnv
          (runSend mockEnv (fun _ => .atRender) "hi" (.reply "hi there") annReady).localStorage
          ⟨none⟩)).messages =
      [{ role := .user, content := "hi" }, { role := .assistant, content := "hi there" }] ∧
    (runSend mockEnv (fun _ => .atRender) "hi" (.reply "hi there") annReady).localStorage.projects.map
        (fun q => q.name) = ["Bot"] :=
  ⟨(send_then_reload mockEnv (fun _ => .atRender) annReady botProject "hi" "hi there"
      (by decide) (by decide) (by decide) (by decide)).2.1 ⟨none⟩, by decide⟩

/-- C9: with a project active, the API key configured and a non-blank input,
when the request fails (the call rejects, the status is not a success, or the
body is malformed) the persistent store is what it was before the send, the
visible history is the previous one followed by the user message, a non-empty
error message is set, `loading` is cleared and no reveal has been started. -/
theorem failed_send_keeps_store (env : Env) (timing : Nat → UpdaterTiming) (s : AppState)
    (p : Project) (text : String) (f : FetchOutcome)
    (hkey : env.apiKey.getD "" ≠ "") (hsel : s.selectedProject = some p)
    (hM : isBlank text = false) (hf : f.isFailure = true) :
    (runSend env timing text f s).localStorage = s.localStorage ∧
    (runSend env timing text f s).messages = s.messages ++ [{ role := .user, content := text }] ∧
    (runSend env timing text f s).error ≠ "" ∧
    (runSend env timing text f s).loading = false ∧
    (runSend env timing text f s).streaming = s.streaming ∧
    (∃ s1 req, sendMessage env { s with input := text } = (s1, some req) ∧
      onResponse req f s1 = (runSend env timing text f s, none)) := by
  obtain ⟨message, hm⟩ := runSend_failure env timing s p text f hkey hsel hM hf
  refine ⟨by rw [hm]; rfl, by rw [hm]; rfl, ?_, by rw [hm]; rfl, by rw [hm]; rfl, ?_⟩
  · rw [hm]
    exact onError_ne_empty _ _
  · refine ⟨_, _, sendMessage_issued env { s with input := text } p hkey hsel hM, ?_⟩
    unfold runSend
    rw [sendMessage_issued env { s with input := text } p hkey hsel hM]
    obtain ⟨m2, h2⟩ := onResponse_failure
      { newMessages := s.messages ++ [{ role := .user, content := text }], selectedProject := p }
      f { s with messages := s.messages ++ [{ role := .user, content := text }],
                 input := "", loading := true, error := "" } hf
    simp only
    rw [h2]

/-- C9 at a concrete input: Ann sends `hi` and the API answers with status 500. -/
theorem failed_send_keeps_store_witness :
    (runSend mockEnv (fun _ => .atRender) "hi" (.notOk 500 none) annReady).localStorage
      = annReady.localStorage ∧
    (runSend mockEnv (fun _ => .atRender) "hi" (.notOk 500 none) annReady).messages
      = annReady.messages ++ [{ role := .user, content := "hi" }] ∧
    (runSend mockEnv (fun _ => .atRender) "hi" (.notOk 500 none) annReady).error ≠ "" :=
  have h := failed_send_keeps_store mockEnv (fun _ => .atRender) annReady botProject "hi"
    (.notOk 500 none) (by decide) (by decide) (by decide) (by decide)
  ⟨h.1, h.2.1, h.2.2.1⟩

/-! ## Turns in the persisted log -/

theorem completeTurns_append_turn (log : List Message) (text content : String)
    (h : completeTurns log = true) :
    completeTurns (log ++
      [{ role := .user, content := text }, { role := .assistant, content := content }]) = true := by
  induction log with
  | nil => simp [completeTurns]
  | cons m tl ih =>
    cases tl with
    | nil =>
      simp only [completeTurns] at h
      simp [completeTurns, h]
    | cons m2 rest =>
      simp only [completeTurns, Bool.and_eq_true] at h
      simp only [List.cons_append, completeTurns, Bool.and_eq_true]
      exact ⟨h.1, ih h.2⟩

theorem runSend_failure_localStorage (env : Env) (timing : Nat → UpdaterTiming) (s : AppState)
    (text : String) (f : FetchOutcome) (hf : f.isFailure = true) :
    (runSend env timing text f s).localStorage = s.localStorage := by
  have h1 := sendMessage_localStorage env { s with input := text }
  unfold runSend
  cases hs : sendMessage env { s with input := text } with
  | mk s1 oreq =>
    rw [hs] at h1
    cases oreq with
    | none => exact h1
    | some req =>
      obtain ⟨message, hm⟩ := onResponse_failure req f s1 hf
      simp only [hm]
      exact h1

theorem runSend_blank (env : Env) (timing : Nat → UpdaterTiming) (s : AppState)
    (p : Project) (text : String) (f : FetchOutcome) (hsel : s.selectedProject = some p)
    (hM : isBlank text = true) : runSend env timing text f s = { s with input := text } := by
  simp [runSend, sendMessage, hsel, hM]

/-- The invariant of a conversation in which no send has failed. -/
theorem runSends_all_reply (env : Env) (timing : Nat → UpdaterTiming) (p : Project)
    (hkey : env.apiKey.getD "" ≠ "") (sends : List (String × FetchOutcome))
    (hall : ∀ x ∈ sends, x.2.isFailure = false) (s : AppState)
    (hsel : s.selectedProject = some p)
    (hvis : s.messages = s.localStorage.readMessages p.id)
    (hL : completeTurns s.messages = true) :
    (runSends env timing sends s).selectedProject = some p ∧
    (runSends env timing sends s).messages =
      (runSends env timing sends s).localStorage.readMessages p.id ∧
    completeTurns (runSends env timing sends s).messages = true := by
  induction sends generalizing s with
  | nil => exact ⟨hsel, hvis, hL⟩
  | cons x rest ih =>
    obtain ⟨text, outcome⟩ := x
    have hx := hall (text, outcome) (List.mem_cons_self _ _)
    have hrest : ∀ y ∈ rest, y.2.isFailure = false := fun y hy =>
      hall y (List.mem_cons_of_mem _ hy)
    simp only [runSends]
    cases outcome with
    | reply content =>
      by_cases hM : isBlank text = true
      · rw [runSend_blank env timing s p text _ hsel hM]
        exact ih hrest _ hsel hvis hL
      · have hM2 : isBlank text = false := by simpa using hM
        rw [runSend_reply env timing s p text content hkey hsel hM2]
        apply ih hrest
        · exact hsel
        · simp [LocalStorage.readMessages, LocalStorage.setMessages]
        · exact completeTurns_append_turn _ _ _ hL
    | rejected m => simp [FetchOutcome.isFailure] at hx
    | notOk st b => simp [FetchOutcome.isFailure] at hx
    | malformed m => simp [FetchOutcome.isFailure] at hx

/-- C8 refuted as stated: Ann sends `one`, the request is rejected, then sends
`two` and receives `ok`; the persisted log then holds the user message `one`
with no reply after it. -/
theorem failed_turn_is_persisted :
    (runSends mockEnv (fun _ => .atRender)
        [("one", .rejected "offline"), ("two", .reply "ok")] annReady).localStorage.messages
          "2000" =
      some [{ role := .user, content := "one" }, { role := .user, content := "two" },
            { role := .assistant, content := "ok" }] ∧
    completeTurns
      ((runSends mockEnv (fun _ => .atRender)
        [("one", .rejected "offline"), ("two", .reply "ok")] annReady).localStorage.readMessages
          "2000") = false := by
  decide

/-- A sequence of sends that all succeed, each run to its end before the
next, starts every send with no request in flight and no reveal running. -/
theorem runSends_ready (env : Env) (timing : Nat → UpdaterTiming) (p : Project)
    (hkey : env.apiKey.getD "" ≠ "") (sends : List (String × FetchOutcome))
    (hall : ∀ x ∈ sends, x.2.isFailure = false) (s : AppState)
    (hsel : s.selectedProject = some p) (hload : s.loading = false)
    (hstr : s.streaming = false) :
    (runSends env timing sends s).selectedProject = some p ∧
    (runSends env timing sends s).loading = false ∧
    (runSends env timing sends s).streaming = false := by
  induction sends generalizing s with
  | nil => exact ⟨hsel, hload, hstr⟩
  | cons x rest ih =>
    obtain ⟨text, outcome⟩ := x
    have hx := hall (text, outcome) (List.mem_cons_self _ _)
    have hrest : ∀ y ∈ rest, y.2.isFailure = false := fun y hy =>
      hall y (List.mem_cons_of_mem _ hy)
    simp only [runSends]
    cases outcome with
    | reply content =>
      by_cases hM : isBlank text = true
      · rw [runSend_blank env timing s p text _ hsel hM]
        exact ih hrest _ hsel hload hstr
      · have hM2 : isBlank text = false := by simpa using hM
        rw [runSend_reply env timing s p text content hkey hsel hM2]
        exact ih hrest _ hsel rfl rfl
    | rejected m => simp [FetchOutcome.isFailure] at hx
    | notOk st b => simp [FetchOutcome.isFailure] at hx
    | malformed m => simp [FetchOutcome.isFailure] at hx

/-- Sends that overlap are another matter: a send made during a reveal
captures the history without the reply being revealed, and its commit writes
that history, so the log ends with a user message without reply in front of
the last turn. -/
theorem overlapping_sends_persist_partial_turn :
    annOverlapping.localStorage.messages "2000" =
      some [{ role := .user, content := "hi" }, { role := .user, content := "again" },
            { role := .assistant, content := "ok" }] ∧
    completeTurns (annOverlapping.localStorage.readMessages "2000") = false := by
  decide

/-- C8 as amended: a failed send leaves the persistent store as it was; a
successful send on project `p`, run to its end, sets the message log of `p` to
the visible history at the send followed by the user message and its reply;
hence, from a visible history equal to a persisted log of complete turns, with
no request in flight and no reveal running, a sequence of sends all of which
succeed, each made only after the one before has run to its end (request
settled, reveal finished), leaves a persisted log, equal to the visible
history, in which every user message is immediately followed by an assistant
message, and leaves no request in flight and no reveal running. -/
theorem persisted_log_complete_turns (env : Env) (timing : Nat → UpdaterTiming)
    (s : AppState) (p : Project)
    (hkey : env.apiKey.getD "" ≠ "") (hsel : s.selectedProject = some p)
    (hvis : s.messages = s.localStorage.readMessages p.id)
    (hL : completeTurns s.messages = true) :
    (∀ (t : AppState) (text : String) (f : FetchOutcome), f.isFailure = true →
      (runSend env timing text f t).localStorage = t.localStorage) ∧
    (∀ (t : AppState) (text content : String), t.selectedProject = some p →
      isBlank text = false →
      (runSend env timing text (.reply content) t).localStorage.readMessages p.id =
        t.messages ++
          [{ role := .user, content := text }, { role := .assistant, content := content }]) ∧
    (∀ sends : List (String × FetchOutcome), (∀ x ∈ sends, x.2.isFailure = false) →
      (runSends env timing sends s).messages =
        (runSends env timing sends s).localStorage.readMessages p.id ∧
      completeTurns ((runSends env timing sends s).localStorage.readMessages p.id) = true ∧
      (s.loading = false → s.streaming = false →
        (runSends env timing sends s).loading = false ∧
        (runSends env timing sends s).streaming = false)) := by
  refine ⟨?_, ?_, ?_⟩
  · intro t text f hf
    exact runSend_failure_localStorage env timing t text f hf
  · intro t text content ht hM
    rw [runSend_reply env timing t p text content hkey ht hM]
    simp [LocalStorage.readMessages, LocalStorage.setMessages]
  · intro sends hall
    have h := runSends_all_reply env timing p hkey sends hall s hsel hvis hL
    refine ⟨h.2.1, by rw [← h.2.1]; exact h.2.2, ?_⟩
    intro hload hstr
    exact (runSends_ready env timing p hkey sends hall s hsel hload hstr).2

/-- C8 as amended, at a concrete input: two successful sends by Ann, the
second made after the reveal of the first has finished. -/
theorem persisted_log_complete_turns_witness :
    (runSends mockEnv (fun _ => .atRender)
        [("hi", .reply "hi there"), ("more", .reply "ok")] annReady).messages =
      (runSends mockEnv (fun _ => .atRender)
        [("hi", .reply "hi there"), ("more", .reply "ok")] annReady).localStorage.readMessages
          botProject.id ∧
    completeTurns
      ((runSends mockEnv (fun _ => .atRender)
        [("hi", .reply "hi there"), ("more", .reply "ok")] annReady).localStorage.readMessages
          botProject.id) = true :=
  have h := (persisted_log_complete_turns mockEnv (fun _ => .atRender) annReady botProject
    (by decide) (by decide) (by decide) (by decide)).2.2
    [("hi", .reply "hi there"), ("more", .reply "ok")] (by decide)
  ⟨h.1, h.2.1⟩

/-! ## Sends while a request or a reveal is active -/

/-- While `loading` is set the send button and the Enter key do nothing. -/
theorem send_while_loading (env : Env) (s : AppState) (h : s.loading = true) :
    clickSend env s = (s, none) ∧ pressEnter env s = (s, none) := by
  simp [clickSend, pressEnter, h]

/-- C7 at the failing input: a reveal is running (`streaming` set, `loading`
cleared by `finally`), and both the send button and the Enter key run
`sendMessage`, which appends the user message to the visible history, sets
`loading` and issues a request. -/
theorem send_during_reveal_goes_through :
    annRevealing.streaming = true ∧ annRevealing.loading = false ∧
    (clickSend mockEnv annRevealing).1.messages =
      annRevealing.messages ++ [{ role := .user, content := "again" }] ∧
    (clickSend mockEnv annRevealing).1.loading = true ∧
    (clickSend mockEnv annRevealing).2 =
      some { newMessages := annRevealing.messages ++ [{ role := .user, content := "again" }],
             selectedProject := botProject } ∧
    pressEnter mockEnv annRevealing = clickSend mockEnv annRevealing ∧
    sendMessage mockEnv annRevealing = clickSend mockEnv annRevealing := by
  refine ⟨by decide, by decide, by decide, by decide, by decide, rfl, rfl⟩

/-! ## What the reveal shows -/

/-- With every updater applied during the call, the bubbles after tick `k` of
a reveal of `n` words, `1 ≤ k ≤ n`, are the history captured at the send and
one assistant bubble holding the first `k` words joined by single spaces. -/
theorem reveal_atCall_visible (r : Reveal) (s : AppState) (k : Nat)
    (hi : r.i = 0) (htext : r.words = splitSpace r.assistantText)
    (hsel : s.selectedProject ≠ none) (hmsg : s.messages = r.newMessages)
    (hstr : s.streaming = true) (hbuf : s.streamedContent = "")
    (hk1 : 1 ≤ k) (hk2 : k ≤ r.words.length) :
    visibleBubbles (runTicks (List.replicate k .atCall) r s).1 =
      r.newMessages ++ [{ role := .assistant, content := joinSpace (r.words.take k) }] ∧
    (k < r.words.length →
      (runTicks (List.replicate k .atCall) r s).1.localStorage = s.localStorage) := by
  obtain ⟨q, hq⟩ := Option.ne_none_iff_exists'.1 hsel
  by_cases hlt : k < r.words.length
  · have h := runTicks_atCall k r s (by omega) (by rw [hi, hbuf]; rfl)
    rw [h, hi, Nat.zero_add]
    refine ⟨?_, fun _ => rfl⟩
    simp [visibleBubbles, hq, hstr, hmsg]
  · have hkn : k = r.words.length := by omega
    have h := runTicks_complete (List.replicate k .atCall) r s (by omega) (by simp [hkn, hi])
    rw [h]
    refine ⟨?_, fun hc => absurd hc hlt⟩
    have hj : joinSpace (r.words.take k) = r.assistantText := by
      rw [hkn, List.take_length, htext, joinSpace_splitSpace]
    simp [visibleBubbles, commitState, hq, hj]

/-- C5 at the failing input: when React applies the updater of a tick as it
renders after the callback, the counter has already been incremented.  For the
reply `Hello world` the first tick then shows ` world`, not `Hello`; for the
reply `a b c` the second tick shows `a c` or ` b c`, never `a b`, whatever the
timing of the first. -/
theorem reveal_skips_word :
    visibleBubbles (annAfterTicks "hi" "Hello world" [.atRender]).1 =
      [{ role := .user, content := "hi" }, { role := .assistant, content := " world" }] ∧
    visibleBubbles (annAfterTicks "hi" "a b c" [.atCall, .atRender]).1 =
      [{ role := .user, content := "hi" }, { role := .assistant, content := "a c" }] ∧
    visibleBubbles (annAfterTicks "hi" "a b c" [.atRender, .atRender]).1 =
      [{ role := .user, content := "hi" }, { role := .assistant, content := " b c" }] ∧
    ∀ t : UpdaterTiming, visibleBubbles (annAfterTicks "hi" "a b c" [t, .atRender]).1 ≠
      [{ role := .user, content := "hi" },
       { role := .assistant, content := joinSpace ((splitSpace "a b c").take 2) }] := by
  refine ⟨by decide, by decide, by decide, ?_⟩
  intro t
  cases t <;> decide

/-! ## Ids from the clock -/

theorem digitChar_toNat (k : Nat) (h : k < 10) : (Nat.digitChar k).toNat - 48 = k := by
  interval_cases k <;> rfl

theorem readDigits_toDigitsCore (fuel n : Nat) (ds : List Char) (h : n < fuel) :
    readDigits 0 (Nat.toDigitsCore 10 fuel n ds) = readDigits n ds := by
  induction fuel generalizing n ds with
  | zero => omega
  | succ fuel ih =>
    simp only [Nat.toDigitsCore]
    have hd := digitChar_toNat (n % 10) (Nat.mod_lt _ (by omega))
    by_cases h0 : n / 10 = 0
    · simp only [h0, if_true]
      have hn : n % 10 = n := Nat.mod_eq_of_lt (by omega)
      rw [hn] at hd
      simp only [readDigits, List.foldl_cons, hn, hd, Nat.zero_mul, Nat.zero_add]
    · simp only [h0, if_false]
      rw [ih (n / 10) _ (by omega)]
      simp only [readDigits, List.foldl_cons, hd]
      congr 1
      omega

/-- The decimal string of a clock reading determines the reading. -/
theorem toString_nat_injective (a b : Nat) (h : toString a = toString b) : a = b := by
  have h2 : (Nat.toDigits 10 a) = (Nat.toDigits 10 b) := by
    have := congrArg String.data h
    simpa [toString, Nat.repr, List.asString] using this
  have ha := readDigits_toDigitsCore (a + 1) a [] (by omega)
  have hb := readDigits_toDigitsCore (b + 1) b [] (by omega)
  unfold Nat.toDigits at h2
  rw [h2, hb] at ha
  simpa [readDigits] using ha.symm

theorem toDigitsCore_ne_nil (fuel n : Nat) (ds : List Char) (h : 0 < fuel) :
    Nat.toDigitsCore 10 fuel n ds ≠ [] := by
  induction fuel generalizing n ds with
  | zero => omega
  | succ fuel ih =>
    simp only [Nat.toDigitsCore]
    split
    · simp
    · rename_i h0
      cases fuel with
      | zero => simp [Nat.toDigitsCore]
      | succ f => exact ih _ _ (by omega)

/-- The decimal string of a clock reading is not empty. -/
theorem toString_nat_ne_empty (a : Nat) : toString a ≠ "" := by
  intro h
  have := congrArg String.data h
  simp only [toString, Nat.repr, List.asString, Nat.toDigits] at this
  exact toDigitsCore_ne_nil (a + 1) a [] (by omega) this

theorem register_users (env : Env) (name email password : String) (now : Nat) (iso : String)
    (tokenNow : Nat) (s : AppState) :
    ((register env name email password now iso tokenNow s).localStorage.users
        = s.localStorage.users ∨
      ∃ u : User, u.id = toString now ∧
        (register env name email password now iso tokenNow s).localStorage.users
          = s.localStorage.users ++ [u]) ∧
    (register env name email password now iso tokenNow s).localStorage.projects
      = s.localStorage.projects := by
  by_cases hv : fieldsValid name email password
  · by_cases ht : emailTaken s.localStorage email
    · have h := register_taken env name email password now iso tokenNow s hv ht
      simp only at h
      rw [h.1]
      exact ⟨Or.inl rfl, rfl⟩
    · have h := register_fresh env name email password now iso tokenNow s hv ht
      simp only at h
      exact ⟨Or.inr ⟨_, rfl, h.1⟩, h.2.1⟩
  · have h := register_invalid env name email password now iso tokenNow s hv
    simp only at h
    rw [h.1]
    exact ⟨Or.inl rfl, rfl⟩

theorem newProject_projects (name prompt : String) (now : Nat) (iso : String) (s : AppState) :
    ((newProject name prompt now iso s).localStorage.projects = s.localStorage.projects ∨
      ∃ p : Project, p.id = toString now ∧
        (newProject name prompt now iso s).localStorage.projects
          = s.localStorage.projects ++ [p]) ∧
    (newProject name prompt now iso s).localStorage.users = s.localStorage.users := by
  simp only [newProject, createProject]
  split
  · exact ⟨Or.inl rfl, rfl⟩
  · split
    · exact ⟨Or.inl rfl, rfl⟩
    · exact ⟨Or.inr ⟨_, rfl, rfl⟩, rfl⟩

theorem nodup_map_append_singleton {α : Type} (f : α → String) (l : List α) (a : α)
    (hd : (l.map f).Nodup) (hf : f a ∉ l.map f) : ((l ++ [a]).map f).Nodup := by
  rw [List.map_append, List.nodup_append]
  refine ⟨hd, by simp, ?_⟩
  intro x hx hy
  simp only [List.map_cons, List.map_nil, List.mem_singleton] at hy
  subst hy
  exact hf hx

/-- Ids stay unique along creations whose clock readings are new. -/
theorem runCreations_ids_unique (env : Env) (cs : List Creation) (s : AppState)
    (hU : userIdsUnique s.localStorage) (hP : projectIdsUnique s.localStorage)
    (hUd : (cs.filterMap Creation.userReading).Nodup)
    (hPd : (cs.filterMap Creation.projectReading).Nodup)
    (hUf : ∀ n ∈ cs.filterMap Creation.userReading,
      toString n ∉ s.localStorage.users.map fun u => u.id)
    (hPf : ∀ n ∈ cs.filterMap Creation.projectReading,
      toString n ∉ s.localStorage.projects.map fun p => p.id) :
    userIdsUnique (runCreations env cs s).localStorage ∧
    projectIdsUnique (runCreations env cs s).localStorage := by
  induction cs generalizing s with
  | nil => exact ⟨hU, hP⟩
  | cons c cs ih =>
    cases c with
    | user name email password now iso tokenNow =>
      simp only [List.filterMap_cons, Creation.userReading, Creation.projectReading,
        List.nodup_cons, List.mem_cons, forall_eq_or_imp] at hUd hPd hUf hPf
      have hr := register_users env name email password now iso tokenNow s
      simp only [runCreations, runCreation]
      apply ih
      · rcases hr.1 with h | ⟨u, hu, h⟩
        · unfold userIdsUnique; rw [h]; exact hU
        · unfold userIdsUnique
          rw [h]
          exact nodup_map_append_singleton _ _ _ hU (by rw [hu]; exact hUf.1)
      · unfold projectIdsUnique; rw [hr.2]; exact hP
      · exact hUd.2
      · exact hPd
      · intro n hn
        rcases hr.1 with h | ⟨u, hu, h⟩
        · rw [h]; exact hUf.2 n hn
        · rw [h, List.map_append, List.mem_append]
          rintro (hc | hc)
          · exact hUf.2 n hn hc
          · simp only [List.map_cons, List.map_nil, List.mem_singleton] at hc
            rw [hu] at hc
            have := toString_nat_injective _ _ hc
            subst this
            exact hUd.1 hn
      · intro n hn
        rw [hr.2]
        exact hPf n hn
    | project name prompt now iso =>
      simp only [List.filterMap_cons, Creation.userReading, Creation.projectReading,
        List.nodup_cons, List.mem_cons, forall_eq_or_imp] at hUd hPd hUf hPf
      have hr := newProject_projects name prompt now iso s
      simp only [runCreations, runCreation]
      apply ih
      · unfold userIdsUnique; rw [hr.2]; exact hU
      · rcases hr.1 with h | ⟨p, hp, h⟩
        · unfold projectIdsUnique; rw [h]; exact hP
        · unfold projectIdsUnique
          rw [h]
          exact nodup_map_append_singleton _ _ _ hP (by rw [hp]; exact hPf.1)
      · exact hUd
      · exact hPd.2
      · intro n hn
        rw [hr.2]
        exact hUf n hn
      · intro n hn
        rcases hr.1 with h | ⟨p, hp, h⟩
        · rw [h]; exact hPf.2 n hn
        · rw [h, List.map_append, List.mem_append]
          rintro (hc | hc)
          · exact hPf.2 n hn hc
          · simp only [List.map_cons, List.map_nil, List.mem_singleton] at hc
            rw [hp] at hc
            have := toString_nat_injective _ _ hc
            subst this
            exact hPd.1 hn

/-- C14 refuted as stated: when two project creations, or two registrations,
meet the same clock reading, the two records carry the same id. -/
theorem same_reading_same_id :
    (bobAfterAnn.localStorage.users.map fun u => u.id) = ["1000", "1000"] ∧
    (bobAfterAnn.localStorage.projects.map fun p => p.id) = ["2000", "2000"] ∧
    ¬ userIdsUnique bobAfterAnn.localStorage ∧
    ¬ projectIdsUnique bobAfterAnn.localStorage := by
  decide

/-- C14 as amended: from a store whose user ids and project ids are unique,
every sequence of registrations and project creations whose clock readings are
pairwise distinct within each collection, and whose decimal strings are not
ids already stored in that collection, leaves user ids and project ids
unique. -/
theorem creation_ids_unique (env : Env) (cs : List Creation) (s : AppState)
    (hU : userIdsUnique s.localStorage) (hP : projectIdsUnique s.localStorage)
    (hUd : (cs.filterMap Creation.userReading).Nodup)
    (hPd : (cs.filterMap Creation.projectReading).Nodup)
    (hUf : ∀ n ∈ cs.filterMap Creation.userReading,
      toString n ∉ s.localStorage.users.map fun u => u.id)
    (hPf : ∀ n ∈ cs.filterMap Creation.projectReading,
      toString n ∉ s.localStorage.projects.map fun p => p.id) :
    userIdsUnique (runCreations env cs s).localStorage ∧
    projectIdsUnique (runCreations env cs s).localStorage :=
  runCreations_ids_unique env cs s hU hP hUd hPd hUf hPf

/-- C14 as amended, at a concrete input: two users and two projects created
at four different readings over the empty store. -/
theorem creation_ids_unique_witness :
    userIdsUnique
      (runCreations mockEnv distinctReadings (initialState emptyStore ⟨none⟩)).localStorage ∧
    projectIdsUnique
      (runCreations mockEnv distinctReadings (initialState emptyStore ⟨none⟩)).localStorage :=
  creation_ids_unique mockEnv distinctReadings (initialState emptyStore ⟨none⟩)
    (by decide) (by decide) (by decide) (by decide) (by decide) (by decide)

/-! ## Tokens and the resumed session -/

theorem mockEnv_roundTrips : mockEnv.roundTrips := by
  refine ⟨?_, ?_, ?_⟩
  · intro s t h
    simp only [mockEnv, Option.some.injEq] at h
    simp [mockEnv, h]
  · intro id ts
    simp [mockEnv, getUserId, List.lookup]
  · intro id ts hid
    simp [generateToken, mockEnv, getUserId, List.lookup, hid]

theorem verifyToken_generateToken (env : Env) (h : env.roundTrips) (id : String) (ts : Nat)
    (token : String) (ht : generateToken env id ts = some token) :
    verifyToken env token = .str id := by
  have h1 := h.1 _ _ ht
  have h2 := h.2.1 id ts
  rw [verifyToken_eq_str]
  unfold verifyTokenTry
  simp only [h1, Option.bind_eq_bind, Option.some_bind]
  exact h2

/-- The effect resolves a token that decodes to the id of `u` to the first
stored user of that id. -/
theorem resumeSession_resolves (env : Env) (s : AppState) (token : String) (u : User)
    (ht : s.sessionStorage.authToken = some token) (hne : token ≠ "")
    (hv : verifyToken env token = .str u.id) (hid : u.id ≠ "")
    (hfirst : firstWithId s.localStorage u) :
    (resumeSession env s).currentUser = some u ∧
    (resumeSession env s).view = .dashboard ∧
    (resumeSession env s).projects =
      s.localStorage.projects.filter fun p => p.userId == u.id := by
  unfold firstWithId at hfirst
  unfold resumeSession
  rw [ht]
  simp only [hne, if_false, hv, JsVal.truthy, bne_iff_ne, ne_eq, hid, not_false_eq_true,
    if_true, loadProjects, strictEqStr, hfirst, and_self]

theorem login_success (env : Env) (s : AppState) (email password : String) (tokenNow : Nat)
    (u : User) (token : String)
    (hfind : (s.localStorage.users.find? fun w =>
      w.email == email && w.password == hashPassword env password) = some u)
    (htok : generateToken env u.id tokenNow = some token) :
    (login env email password tokenNow s).currentUser = some u ∧
    (login env email password tokenNow s).sessionStorage.authToken = some token ∧
    (login env email password tokenNow s).localStorage = s.localStorage ∧
    (login env email password tokenNow s).view = .dashboard ∧
    (login env email password tokenNow s).projects =
      s.localStorage.projects.filter fun p => p.userId == u.id := by
  simp only [login, handleLogin, hfind, htok, loadProjects, strictEqStr, and_self]

theorem firstWithId_appended (users : List User) (u : User)
    (h : ∀ w ∈ users, w.id ≠ u.id) :
    ((users ++ [u]).find? fun w => w.id == u.id) = some u := by
  have hn : (users.find? fun w => w.id == u.id) = none := by
    rw [List.find?_eq_none]
    intro w hw
    simpa using h w hw
  simp [List.find?_append, hn]

/-- C11 refuted as stated: Bob registers at the clock reading at which Ann
registered before him; his token decodes to his id, and the resumed session
resolves it to the record of Ann, the first stored user of that id. -/
theorem resume_resolves_to_earlier_user :
    bobAfterAnn.currentUser =
      some { id := "1000", name := "Bob", email := "bob@x.com",
             password := hashPassword mockEnv "secret2", createdAt := "t4" } ∧
    (startup mockEnv bobAfterAnn.localStorage bobAfterAnn.sessionStorage).currentUser =
      some { id := "1000", name := "Ann", email := "ann@x.com",
             password := hashPassword mockEnv "secret1", createdAt := "t1" } ∧
    (startup mockEnv bobAfterAnn.localStorage bobAfterAnn.sessionStorage).currentUser
      ≠ bobAfterAnn.currentUser := by
  decide

/-- C11 as amended: with builtins that round-trip, `verifyToken` returns the
id `generateToken` was given, for every id and issue time.  Hence after a
successful registration at a clock reading whose decimal string no stored user
has as id, and after a successful login of a user whose id is not empty and who
is the first stored user of that id, the startup effect over the same session
store and persistent store resolves to that user as the current user. -/
theorem token_resolves_user (env : Env) (h : env.roundTrips) :
    (∀ (id : String) (ts : Nat) (token : String),
      generateToken env id ts = some token → verifyToken env token = .str id) ∧
    (∀ (s : AppState) (name email password : String) (now : Nat) (iso : String)
        (tokenNow : Nat) (token : String),
      fieldsValid name email password → ¬ emailTaken s.localStorage email →
      generateToken env (toString now) tokenNow = some token →
      (∀ w ∈ s.localStorage.users, w.id ≠ toString now) →
      (register env name email password now iso tokenNow s).currentUser =
        some (newUserOf env name email password now iso) ∧
      (startup env (register env name email password now iso tokenNow s).localStorage
        (register env name email password now iso tokenNow s).sessionStorage).currentUser =
        some (newUserOf env name email password now iso)) ∧
    (∀ (s : AppState) (email password : String) (tokenNow : Nat) (u : User) (token : String),
      (s.localStorage.users.find? fun w =>
        w.email == email && w.password == hashPassword env password) = some u →
      generateToken env u.id tokenNow = some token →
      u.id ≠ "" → firstWithId s.localStorage u →
      (login env email password tokenNow s).currentUser = some u ∧
      (startup env (login env email password tokenNow s).localStorage
        (login env email password tokenNow s).sessionStorage).currentUser = some u) := by
  refine ⟨?_, ?_, ?_⟩
  · intro id ts token ht
    exact verifyToken_generateToken env h id ts token ht
  · intro s name email password now iso tokenNow token hv hfree htok hfresh
    have hr := register_fresh env name email password now iso tokenNow s hv hfree
    simp only at hr
    have hs := hr.2.2.2.2.1 token htok
    refine ⟨hs.2.1, ?_⟩
    have hne : token ≠ "" := by
      intro hc
      exact h.2.2 (toString now) tokenNow (toString_nat_ne_empty now) (by rw [htok, hc])
    refine (resumeSession_resolves env (initialState _ _) token
      (newUserOf env name email password now iso)
      hs.1 hne (verifyToken_generateToken env h _ _ token htok)
      (toString_nat_ne_empty now) ?_).1
    unfold firstWithId
    show ((register env name email password now iso tokenNow s).localStorage.users.find?
      fun w => w.id == (newUserOf env name email password now iso).id) = _
    rw [hr.1]
    exact firstWithId_appended _ _ hfresh
  · intro s email password tokenNow u token hfind htok hid hfirst
    have hl := login_success env s email password tokenNow u token hfind htok
    refine ⟨hl.1, ?_⟩
    have hne : token ≠ "" := by
      intro hc
      exact h.2.2 u.id tokenNow hid (by rw [htok, hc])
    refine (resumeSession_resolves env (initialState _ _) token u hl.2.1 hne
      (verifyToken_generateToken env h _ _ token htok) hid ?_).1
    show firstWithId (login env email password tokenNow s).localStorage u
    rw [hl.2.2.1]
    exact hfirst

/-- C11 as amended, at a concrete input: Ann registers over the empty store
and the session is resumed; she logs out, logs in, and it is resumed again. -/
theorem token_resolves_user_witness :
    verifyToken mockEnv "1000" = .str "1000" ∧
    (startup mockEnv
      (register mockEnv "Ann" "ann@x.com" "secret1" 1000 "t1" 1001
        (initialState emptyStore ⟨none⟩)).localStorage
      (register mockEnv "Ann" "ann@x.com" "secret1" 1000 "t1" 1001
        (initialState emptyStore ⟨none⟩)).sessionStorage).currentUser =
      some (newUserOf mockEnv "Ann" "ann@x.com" "secret1" 1000 "t1") ∧
    (startup mockEnv
      (login mockEnv "ann@x.com" "secret1" 3000 annLoggedOut).localStorage
      (login mockEnv "ann@x.com" "secret1" 3000 annLoggedOut).sessionStorage).currentUser =
      some (newUserOf mockEnv "Ann" "ann@x.com" "secret1" 1000 "t1") :=
  have h := token_resolves_user mockEnv mockEnv_roundTrips
  ⟨h.1 "1000" 1001 "1000" (by decide),
   (h.2.1 (initialState emptyStore ⟨none⟩) "Ann" "ann@x.com" "secret1" 1000 "t1" 1001 "1000"
      (by decide) (by decide) (by decide) (by decide)).2,
   (h.2.2 annLoggedOut "ann@x.com" "secret1" 3000
      (newUserOf mockEnv "Ann" "ann@x.com" "secret1" 1000 "t1") "1000"
      (by decide) (by decide) (by decide) (by decide)).2⟩

/-! ## Logout -/

/-- What `handleLogout` resets, from every state. -/
theorem handleLogout_resets (s : AppState) :
    (handleLogout s).sessionStorage.authToken = none ∧
    (handleLogout s).currentUser = none ∧
    (handleLogout s).projects = [] ∧
    (handleLogout s).selectedProject = none ∧
    (handleLogout s).messages = [] ∧
    (handleLogout s).view = .login ∧
    (handleLogout s).localStorage = s.localStorage ∧
    (handleLogout s).streaming = s.streaming ∧
    (handleLogout s).streamedContent = s.streamedContent ∧
    (handleLogout s).loading = s.loading :=
  ⟨rfl, rfl, rfl, rfl, rfl, rfl, rfl, rfl, rfl, rfl⟩

/-- C12 at the failing input: Ann logs out after the first tick of a reveal.
Right after the logout the reveal is still marked active and the buffer still
holds what was revealed; the interval keeps firing, and its last tick puts two
messages into the history of the logged-out state and writes the message log,
all before any login. -/
theorem logout_leaves_reveal_running (t t2 t3 : UpdaterTiming) :
    (annLogsOut t).1.currentUser = none ∧
    (annLogsOut t).1.messages = [] ∧
    (annLogsOut t).1.streaming = true ∧
    (annLogsOut t).1.streamedContent ≠ "" ∧
    (annLogsOut t).2.isSome = true ∧
    (annLogsOutThenTicks t [t2, t3]).1.currentUser = none ∧
    (annLogsOutThenTicks t [t2, t3]).1.messages =
      [{ role := .user, content := "hi" }, { role := .assistant, content := "a b c" }] ∧
    (annLogsOut t).1.localStorage.messages "2000" = none ∧
    (annLogsOutThenTicks t [t2, t3]).1.localStorage.messages "2000" =
      some [{ role := .user, content := "hi" }, { role := .assistant, content := "a b c" }] := by
  cases t <;> cases t2 <;> cases t3 <;> decide

/-! ## Orphan logs -/

/-- The handler `deleteProject` by itself leaves no orphan log behind. -/
theorem deleteProject_noOrphanLogs (s : AppState) (p : String)
    (h : noOrphanLogs s.localStorage) : noOrphanLogs (deleteProject p s).localStorage := by
  intro k hk
  have hls : (deleteProject p s).localStorage =
      { users := s.localStorage.users
        projects := s.localStorage.projects.filter fun q => q.id != p
        messages := fun j => if j = p then none else s.localStorage.messages j } := by
    simp only [deleteProject, LocalStorage.removeMessages]
    split <;> rfl
  rw [hls] at hk ⊢
  simp only at hk
  by_cases hkp : k = p
  · simp [hkp] at hk
  · simp only [hkp, if_false] at hk
    obtain ⟨q, hq, hqk⟩ := h k hk
    refine ⟨q, ?_, hqk⟩
    simp only [List.mem_filter, bne_iff_ne, ne_eq]
    exact ⟨hq, by rw [hqk]; exact hkp⟩

/-- C13 at the failing input: Ann deletes the project while its reply is being
revealed.  Right after the deletion the store has no orphan log; the interval
keeps firing, and when the reveal finishes its commit writes the message log of
the deleted project back, under a key no stored project has. -/
theorem delete_during_reveal_leaves_orphan (t1 t2 t3 : UpdaterTiming) :
    noOrphanLogs (annDeletesThenTicks []).1.localStorage ∧
    (annDeletesThenTicks [t1, t2, t3]).2 = none ∧
    (annDeletesThenTicks [t1, t2, t3]).1.localStorage.projects = [] ∧
    (annDeletesThenTicks [t1, t2, t3]).1.localStorage.messages "2000" =
      some [{ role := .user, content := "hi" }, { role := .assistant, content := "a b c" }] ∧
    ¬ noOrphanLogs (annDeletesThenTicks [t1, t2, t3]).1.localStorage := by
  have h4 : (annDeletesThenTicks [t1, t2, t3]).1.localStorage.messages "2000" =
      some [{ role := .user, content := "hi" }, { role := .assistant, content := "a b c" }] := by
    cases t1 <;> cases t2 <;> cases t3 <;> decide
  have h3 : (annDeletesThenTicks [t1, t2, t3]).1.localStorage.projects = [] := by
    cases t1 <;> cases t2 <;> cases t3 <;> decide
  refine ⟨?_, ?_, h3, h4, ?_⟩
  · intro k hk
    exfalso
    apply hk
    show (if k = "2000" then none else none) = none
    split <;> rfl
  · cases t1 <;> cases t2 <;> cases t3 <;> decide
  · intro hc
    obtain ⟨p, hp, _⟩ := hc "2000" (by rw [h4]; simp)
    rw [h3] at hp
    cases hp

/-! ## The project list of the session -/

theorem register_projects (env : Env) (name email password : String) (now : Nat)
    (iso : String) (tokenNow : Nat) (s : AppState) :
    (register env name email password now iso tokenNow s).projects = s.projects := by
  simp only [register, handleRegister]
  split
  · rfl
  · split
    · rfl
    · split
      · rfl
      · split <;> rfl

/-- The effect either leaves the state alone or installs a stored user
together with the stored projects of that user. -/
theorem resumeSession_cases (env : Env) (s : AppState) :
    resumeSession env s = s ∨
    ∃ user ∈ s.localStorage.users,
      resumeSession env s =
        { s with
          currentUser := some user
          projects := s.localStorage.projects.filter fun p => p.userId == user.id
          view := .dashboard } := by
  unfold resumeSession
  cases htok : s.sessionStorage.authToken with
  | none => exact Or.inl rfl
  | some token =>
    simp only
    by_cases he : token = ""
    · simp [he]
    · simp only [he, if_false]
      by_cases htr : (verifyToken env token).truthy = true
      · simp only [htr, if_true]
        cases hfind : s.localStorage.users.find? fun u =>
            strictEqStr u.id (verifyToken env token) with
        | none => exact Or.inl rfl
        | some user =>
          right
          have hp := List.find?_some hfind
          simp only at hp
          have hv := (strictEqStr_eq_true _ _).1 hp
          refine ⟨user, List.mem_of_find?_eq_some hfind, ?_⟩
          simp only [loadProjects, hv, strictEqStr]
      · simp [htr]

theorem startup_projectsInSync (env : Env) (ls : LocalStorage) (ss : SessionStorage) :
    projectsInSync (startup env ls ss) := by
  intro u hu
  unfold startup at hu ⊢
  rcases resumeSession_cases env (initialState ls ss) with h | ⟨user, _, h⟩
  · rw [h] at hu
    cases hu
  · rw [h] at hu ⊢
    simp only [Option.some.injEq] at hu
    subst hu
    rfl

theorem login_projectsInSync (env : Env) (s : AppState) (email password : String)
    (tokenNow : Nat) (h : projectsInSync s) :
    projectsInSync (login env email password tokenNow s) := by
  intro u hu
  simp only [login, handleLogin] at hu ⊢
  cases hfind : s.localStorage.users.find? fun w =>
      w.email == email && w.password == hashPassword env password with
  | none =>
    simp only [hfind] at hu ⊢
    exact h u hu
  | some user =>
    simp only [hfind] at hu ⊢
    cases htok : generateToken env user.id tokenNow with
    | none =>
      simp only [htok] at hu ⊢
      exact h u hu
    | some token =>
      simp only [htok, loadProjects, Option.some.injEq] at hu ⊢
      subst hu
      simp only [strictEqStr]

theorem createProject_projectsInSync (now : Nat) (iso : String) (s : AppState)
    (h : projectsInSync s) : projectsInSync (createProject now iso s) := by
  intro u hu
  simp only [createProject] at hu ⊢
  by_cases hempty : s.newProjectName = "" ∨ s.newProjectPrompt = ""
  · simp only [hempty, if_true] at hu ⊢
    exact h u hu
  · simp only [hempty, if_false] at hu ⊢
    cases hcu : s.currentUser with
    | none =>
      simp only [hcu] at hu ⊢
      cases hu
    | some cu =>
      simp only [hcu, Option.some.injEq] at hu ⊢
      subst hu
      simp only [List.filter_append, h cu hcu]
      simp

theorem deleteProject_projectsInSync (p : String) (s : AppState)
    (h : projectsInSync s) : projectsInSync (deleteProject p s) := by
  intro u hu
  have hcur : (deleteProject p s).currentUser = s.currentUser := by
    simp only [deleteProject]; split <;> rfl
  have hproj : (deleteProject p s).projects = s.projects.filter fun q => q.id != p := by
    simp only [deleteProject]; split <;> rfl
  have hstore : (deleteProject p s).localStorage.projects =
      s.localStorage.projects.filter fun q => q.id != p := by
    simp only [deleteProject, LocalStorage.removeMessages]; split <;> rfl
  rw [hcur] at hu
  rw [hproj, hstore, h u hu, List.filter_filter, List.filter_filter]
  congr 1
  funext q
  exact Bool.and_comm _ _

theorem register_currentUser (env : Env) (name email password : String) (now : Nat)
    (iso : String) (tokenNow : Nat) (s : AppState) :
    (register env name email password now iso tokenNow s).currentUser = s.currentUser ∨
    ∃ w : User, w.id = toString now ∧
      (register env name email password now iso tokenNow s).currentUser = some w := by
  simp only [register, handleRegister]
  split
  · exact Or.inl rfl
  · split
    · exact Or.inl rfl
    · split
      · exact Or.inl rfl
      · split
        · exact Or.inl rfl
        · exact Or.inr ⟨_, rfl, rfl⟩

theorem register_projectsInSync (env : Env) (name email password : String) (now : Nat)
    (iso : String) (tokenNow : Nat) (s : AppState) (h : projectsInSync s)
    (hempty : s.projects = [])
    (hfresh : ∀ p ∈ s.localStorage.projects, p.userId ≠ toString now) :
    projectsInSync (register env name email password now iso tokenNow s) := by
  intro u hu
  rw [register_projects, (register_users env name email password now iso tokenNow s).2]
  rcases register_currentUser env name email password now iso tokenNow s with hc | ⟨w, hw, hc⟩
  · rw [hc] at hu
    exact h u hu
  · rw [hc] at hu
    cases hu
    rw [hempty, eq_comm, List.filter_eq_nil_iff]
    intro p hp
    rw [hw]
    simpa using hfresh p hp

/-- A step that touches neither the current user nor one of the two project
lists keeps the project list in step with the store. -/
theorem projectsInSync_of_frame (s t : AppState) (h : projectsInSync s)
    (hu : t.currentUser = s.currentUser) (hp : t.projects = s.projects)
    (hs : t.localStorage.projects = s.localStorage.projects) : projectsInSync t := by
  intro u hcu
  rw [hp, hs]
  exact h u (hu ▸ hcu)

theorem sendMessage_frame (env : Env) (s : AppState) :
    (sendMessage env s).1.currentUser = s.currentUser ∧
    (sendMessage env s).1.projects = s.projects ∧
    (sendMessage env s).1.localStorage = s.localStorage := by
  unfold sendMessage
  split
  · exact ⟨rfl, rfl, rfl⟩
  · split
    · exact ⟨rfl, rfl, rfl⟩
    · split <;> exact ⟨rfl, rfl, rfl⟩

theorem onResponse_frame (req : PendingRequest) (outcome : FetchOutcome) (s : AppState) :
    (onResponse req outcome s).1.currentUser = s.currentUser ∧
    (onResponse req outcome s).1.projects = s.projects ∧
    (onResponse req outcome s).1.localStorage = s.localStorage := by
  cases outcome <;> exact ⟨rfl, rfl, rfl⟩

theorem tick_frame (t : UpdaterTiming) (r : Reveal) (s : AppState) :
    (tick t r s).1.currentUser = s.currentUser ∧
    (tick t r s).1.projects = s.projects ∧
    (tick t r s).1.localStorage.projects = s.localStorage.projects ∧
    (tick t r s).1.localStorage.users = s.localStorage.users := by
  unfold tick
  simp only
  split <;> exact ⟨rfl, rfl, rfl, rfl⟩

/-- C15 refuted as stated: Bob registers at the clock reading at which Ann
registered, after she created two projects and logged out.  He is logged in,
`handleRegister` has not reloaded the project list, which is empty, and the
stored projects whose `userId` is his id are the two of Ann. -/
theorem registration_list_out_of_sync :
    bobAfterAnn.currentUser =
      some { id := "1000", name := "Bob", email := "bob@x.com",
             password := hashPassword mockEnv "secret2", createdAt := "t4" } ∧
    bobAfterAnn.projects = [] ∧
    (bobAfterAnn.localStorage.projects.filter fun p => p.userId == "1000").map
      (fun p => p.name) = ["Bot", "Bot 2"] ∧
    ¬ projectsInSync bobAfterAnn := by
  refine ⟨by decide, by decide, by decide, ?_⟩
  intro h
  have h1 := h _ (by decide :
    bobAfterAnn.currentUser =
      some { id := "1000", name := "Bob", email := "bob@x.com",
             password := hashPassword mockEnv "secret2", createdAt := "t4" })
  revert h1
  decide

/-- C15 as amended: the in-memory project list is the stored project
collection filtered to the current user, in stored order, after the session is
resumed and after a login; `createProject` and `deleteProject` keep it so;
hence every listed project is a stored project whose `userId` is the id of the
current user.  Registration, which does not reload the list, keeps it so from
a logged-out state (empty list) when no stored project carries the new id as
`userId`.  Selecting a project, sending, the settling of a request, the ticks
of a reveal and logout keep it so as well. -/
theorem project_list_in_sync (env : Env) :
    (∀ ls ss, projectsInSync (startup env ls ss)) ∧
    (∀ (s : AppState) (email password : String) (tokenNow : Nat), projectsInSync s →
      projectsInSync (login env email password tokenNow s)) ∧
    (∀ (s : AppState) (email password : String) (tokenNow : Nat), s.currentUser = none →
      projectsInSync (login env email password tokenNow s)) ∧
    (∀ (s : AppState) (now : Nat) (iso : String), projectsInSync s →
      projectsInSync (createProject now iso s)) ∧
    (∀ (s : AppState) (p : String), projectsInSync s → projectsInSync (deleteProject p s)) ∧
    (∀ (s : AppState) (u : User) (p : Project), projectsInSync s → s.currentUser = some u →
      p ∈ s.projects → p.userId = u.id ∧ p ∈ s.localStorage.projects) ∧
    (∀ (s : AppState) (name email password : String) (now : Nat) (iso : String)
        (tokenNow : Nat), projectsInSync s → s.projects = [] →
      (∀ p ∈ s.localStorage.projects, p.userId ≠ toString now) →
      projectsInSync (register env name email password now iso tokenNow s)) ∧
    (∀ (s : AppState) (project : Project), projectsInSync s →
      projectsInSync (selectProject project s)) ∧
    (∀ s : AppState, projectsInSync s → projectsInSync (sendMessage env s).1) ∧
    (∀ (req : PendingRequest) (outcome : FetchOutcome) (s : AppState), projectsInSync s →
      projectsInSync (onResponse req outcome s).1) ∧
    (∀ (t : UpdaterTiming) (r : Reveal) (s : AppState), projectsInSync s →
      projectsInSync (tick t r s).1) ∧
    (∀ s : AppState, projectsInSync (handleLogout s)) := by
  refine ⟨startup_projectsInSync env, ?_, ?_, ?_, ?_, ?_, ?_, ?_, ?_, ?_, ?_, ?_⟩
  · intro s email password tokenNow h
    exact login_projectsInSync env s email password tokenNow h
  · intro s email password tokenNow hnone
    apply login_projectsInSync env s email password tokenNow
    intro u hu
    rw [hnone] at hu
    cases hu
  · intro s now iso h
    exact createProject_projectsInSync now iso s h
  · intro s p h
    exact deleteProject_projectsInSync p s h
  · intro s u p h hu hp
    rw [h u hu, List.mem_filter] at hp
    exact ⟨by simpa using hp.2, hp.1⟩
  · intro s name email password now iso tokenNow h hempty hfresh
    exact register_projectsInSync env name email password now iso tokenNow s h hempty hfresh
  · intro s project h
    exact projectsInSync_of_frame s _ h rfl rfl rfl
  · intro s h
    have hf := sendMessage_frame env s
    exact projectsInSync_of_frame s _ h hf.1 hf.2.1 (by rw [hf.2.2])
  · intro req outcome s h
    have hf := onResponse_frame req outcome s
    exact projectsInSync_of_frame s _ h hf.1 hf.2.1 (by rw [hf.2.2])
  · intro t r s h
    have hf := tick_frame t r s
    exact projectsInSync_of_frame s _ h hf.1 hf.2.1 hf.2.2.1
  · intro s u hu
    cases hu

/-- C15 as amended, at a concrete input: Ann logs out and logs in again; the
list of her session is the one stored project, which is hers. -/
theorem project_list_in_sync_witness :
    (login mockEnv "ann@x.com" "secret1" 3000 (handleLogout annReady)).projects =
      (login mockEnv "ann@x.com" "secret1" 3000
        (handleLogout annReady)).localStorage.projects.filter (fun p => p.userId == "1000") ∧
    (login mockEnv "ann@x.com" "secret1" 3000 (handleLogout annReady)).projects = [botProject] :=
  ⟨(project_list_in_sync mockEnv).2.2.1 (handleLogout annReady) "ann@x.com" "secret1" 3000 rfl
      (newUserOf mockEnv "Ann" "ann@x.com" "secret1" 1000 "t1") (by decide),
    by decide⟩

end YellowAI
